import Mathlib

/-!
# Verification of the session state machine and lexical-analysis engine
of `structured_creativity_techniques.py`

This file is a shallow embedding, in Lean 4, of the core of the repository:
the `NLPProcessor` lexical analyzer and the `StructuredCreativityTechniques`
session orchestrator.  Python floats are modelled as rationals (`ℚ`); all
exact values the claims mention (`0`, `1`, `100`, small fractions with tiny
numerators) are representable exactly in binary floating point, and every
comparison the claims make is far from a floating-point rounding boundary.
Python `datetime.now()` / `time.time()` are modelled by an injected clock
(`now : ℕ`, seconds), and `random.sample` — the one declared nondeterminism
source — by an injected oracle holding the outcome of the sample.
-/

/-! ## Python dictionaries

`dict` is modelled as an insertion-ordered association list.  `dictSet` is
`d[k] = v` (replaces in place when the key exists, appends otherwise),
`dictGet` is `d.get(k)` / `d[k]`, `dictErase` is `del d[k]`. -/

def dictSet {V : Type} : List (String × V) → String → V → List (String × V)
  | [], k, v => [(k, v)]
  | p :: d, k, v => if p.1 = k then (k, v) :: d else p :: dictSet d k v

def dictGet {V : Type} (d : List (String × V)) (k : String) : Option V :=
  (d.find? (fun p => p.1 == k)).map (fun p => p.2)

def dictErase {V : Type} (d : List (String × V)) (k : String) :
    List (String × V) :=
  d.filter (fun p => p.1 != k)

/-! ## Python `round(x, n)`

CPython rounds floats half to even.  We model it on rationals; no value a
claim touches lies at a half-way tie, so the half-even / half-up distinction
(and the float-representation error underneath CPython's version) never
shows. -/

def roundHalfEven (x : ℚ) : ℤ :=
  let n : ℤ := ⌊x⌋
  let f : ℚ := x - n
  if f < 1/2 then n
  else if 1/2 < f then n + 1
  else if n % 2 = 0 then n else n + 1

/-- Python `round(q, d)`. -/
def pyRound (d : ℕ) (q : ℚ) : ℚ :=
  ((roundHalfEven (q * 10 ^ d) : ℚ)) / 10 ^ d

/-! ## `NLPProcessor`: the stop-word set and the domain table -/

/-- `NLPProcessor.stop_words` (source lines 54-60), verbatim. -/
def stop_words : List String :=
  ["the", "a", "an", "and", "or", "but", "in", "on", "at", "to", "for", "of", "with",
   "by", "from", "up", "about", "into", "through", "during", "before", "after",
   "above", "below", "between", "among", "is", "are", "was", "were", "be", "been",
   "being", "have", "has", "had", "do", "does", "did", "will", "would", "could",
   "should", "may", "might", "must", "can", "this", "that", "these", "those"]

/-- `NLPProcessor.domain_keywords` (source lines 63-70), verbatim; the order
of the entries is the dict insertion order, which Python's `max` over
`.items()` observes when scores tie. -/
def domain_keywords : List (String × List String) :=
  [("technology", ["software", "app", "digital", "platform", "system", "algorithm", "ai", "ml", "data"]),
   ("business", ["revenue", "profit", "market", "customer", "sales", "growth", "strategy", "competition"]),
   ("design", ["user", "interface", "experience", "visual", "layout", "aesthetic", "usability", "design"]),
   ("communication", ["team", "collaboration", "meeting", "feedback", "information", "message", "discussion"]),
   ("process", ["workflow", "efficiency", "optimization", "procedure", "method", "process", "improvement"]),
   ("people", ["employee", "staff", "management", "leadership", "culture", "motivation", "engagement"])]

/-! ## Tokenization

`extract_keywords` runs `re.findall(r'\x5cb[a-zA-Z]+\x5cb', text.lower())`.
With Python's word-boundary `\x5cb`, a maximal run of letters matches only
when the characters adjacent to it (if any) are not word characters; a run
glued to a digit or an underscore produces no token at all ("abc123" yields
nothing, not "abc").  `isWordChar` is the ASCII fragment of Python's `\x5cw`
(the repository only ever feeds ASCII text into the analyzer). -/

def isWordChar (c : Char) : Bool :=
  c.isAlpha || c.isDigit || c == '_'

/-- One left-to-right pass over the lowered characters.  `okStart` records
whether the position before the current letter run is a valid boundary
(start of text, or a non-word character); a run is emitted only when both
its neighbours are boundaries, exactly as the regex does. -/
def tokenizeGo (okStart : Bool) (run : List Char) : List Char → List (List Char)
  | [] => if run ≠ [] ∧ okStart then [run] else []
  | c :: cs =>
    if c.isAlpha then
      tokenizeGo okStart (run ++ [c]) cs
    else
      (if run ≠ [] ∧ okStart ∧ ¬ isWordChar c then [run] else [])
        ++ tokenizeGo (¬ isWordChar c) [] cs

/-- `re.findall(r'\x5cb[a-zA-Z]+\x5cb', text.lower())` of source line 75. -/
def tokenize (text : String) : List String :=
  (tokenizeGo true [] (text.data.map Char.toLower)).map (fun cs => String.mk cs)

/-- The keyword token list (with multiplicity, in text order): source line 78,
`[word for word in words if word not in self.stop_words and len(word) > 2]`. -/
def keywordTokens (text : String) : List String :=
  (tokenize text).filter (fun w => ¬ stop_words.contains w ∧ w.length > 2)

/-- The distinct keywords in first-occurrence order: the keys of
`Counter(keywords)` (Python dicts keep first-insertion order). -/
def firstDedup : List String → List String
  | [] => []
  | a :: l => a :: (firstDedup l).filter (fun b => b ≠ a)

/-- `Counter(keywords).most_common(10)` (source lines 81-82): the distinct
keywords, stably sorted by descending count, first ten.  CPython's
`most_common` is documented to order ties by first insertion, i.e. first
occurrence; the insertion sort below, with relation "count of the left
argument is at least the count of the right one", is that stable descending
sort. -/
def extract_keywords (text : String) : List String :=
  let keywords := keywordTokens text
  ((firstDedup keywords).insertionSort
      (fun a b => keywords.count b ≤ keywords.count a)).take 10

/-- `NLPProcessor.categorize_problem` (source lines 84-98): for each domain,
confidence = |keywords(text) ∩ domain keywords| / |domain keywords|, in the
domain table's order. -/
def categorize_problem (problem_text : String) : List (String × ℚ) :=
  let problem_words := (extract_keywords problem_text).toFinset
  domain_keywords.map (fun p =>
    let overlap := (problem_words ∩ p.2.toFinset).card
    let total := p.2.length
    (p.1, if 0 < total then (overlap : ℚ) / total else 0))

/-- Python `max(domain_scores.items(), key=lambda x: x[1])[0]`: the first
entry attaining the maximal score (`max` keeps the first maximum). -/
def primaryDomain (scores : List (String × ℚ)) : String :=
  match scores with
  | [] => "general"
  | p :: rest =>
    (rest.foldl (fun best q => if best.2 < q.2 then q else best) p).1

/-- `NLPProcessor.calculate_similarity` (source lines 100-112): Jaccard
similarity of the two keyword sets, 0 when either set is empty. -/
def calculate_similarity (text1 text2 : String) : ℚ :=
  let words1 := (extract_keywords text1).toFinset
  let words2 := (extract_keywords text2).toFinset
  if words1 = ∅ ∨ words2 = ∅ then 0
  else
    let intersection := (words1 ∩ words2).card
    let union := (words1 ∪ words2).card
    if 0 < union then (intersection : ℚ) / union else 0

/-- Python `len(text.split())`: the number of maximal whitespace-separated
runs (`Char.isWhitespace` is the ASCII fragment of Python's default split). -/
def word_count (text : String) : ℕ :=
  (text.data.foldl
    (fun (acc : ℕ × Bool) c =>
      if c.isWhitespace then (acc.1, false)
      else if acc.2 then acc else (acc.1 + 1, true))
    (0, false)).1

/-- The record returned by `NLPProcessor.analyze_idea_quality`. -/
structure IdeaAnalysis where
  novelty_score : ℚ
  complexity_score : ℚ
  specificity_score : ℚ
  quality_score : ℚ
  key_concepts : List String
  deriving DecidableEq, Repr

/-- `NLPProcessor.analyze_idea_quality` (source lines 142-165).  The weights
0.4 / 0.3 / 0.3 are written as the exact rationals 4/10 and 3/10 (the float
representation error of 0.4 is irrelevant to every claim).  Each score is
rounded to two decimal places, exactly as `round(x, 2)` does. -/
def analyze_idea_quality (idea problem_text : String) : IdeaAnalysis :=
  let idea_keywords := extract_keywords idea
  let novelty := 1 - calculate_similarity idea problem_text
  let complexity := min ((idea_keywords.length : ℚ) / 10) 1
  let specificity := min ((word_count idea : ℚ) / 20) 1
  let quality := novelty * (4/10) + complexity * (3/10) + specificity * (3/10)
  { novelty_score := pyRound 2 novelty
    complexity_score := pyRound 2 complexity
    specificity_score := pyRound 2 specificity
    quality_score := pyRound 2 quality
    key_concepts := idea_keywords.take 5 }

/-- One cluster produced by `detect_idea_clusters`. -/
structure Cluster where
  representative_idea : String
  similar_ideas : List String
  cluster_theme : String
  similarity_scores : List ℚ
  deriving DecidableEq, Repr

/-- The body of the greedy loop of `NLPProcessor.detect_idea_clusters`
(source lines 167-206).  The Python loop walks the ideas by index with a
`used` set: the first unused idea becomes the representative, every later
unused idea whose similarity to it reaches the threshold joins (and is
marked used, in input order), then the outer loop resumes at the next
unused index — i.e. it recurses on exactly the later ideas that did not
join.  The fuel argument (`ideas.length` at the top call) only serves
structural termination; `detectGo_congr` below shows it is irrelevant. -/
def detectGo (θ : ℚ) : ℕ → List String → List Cluster
  | 0, _ => []
  | _ + 1, [] => []
  | n + 1, idea1 :: rest =>
    let joined := rest.filter (fun y => θ ≤ calculate_similarity idea1 y)
    let remaining := rest.filter (fun y => ¬ θ ≤ calculate_similarity idea1 y)
    let members := idea1 :: joined
    let common_keywords := extract_keywords (String.intercalate " " members)
    { representative_idea := idea1
      similar_ideas := members
      cluster_theme :=
        if common_keywords ≠ [] then
          String.intercalate ", " (common_keywords.take 3)
        else "Mixed concepts"
      similarity_scores := joined.map (fun y => calculate_similarity idea1 y) }
      :: detectGo θ n remaining

/-- `NLPProcessor.detect_idea_clusters(ideas, threshold)`; the Python default
for the threshold is 0.3, written `3/10` at call sites here. -/
def detect_idea_clusters (ideas : List String) (threshold : ℚ) : List Cluster :=
  detectGo threshold ideas.length ideas

/-! ## The data model of `StructuredCreativityTechniques` -/

/-- The `CreativityTechnique` enum (source lines 19-23). -/
inductive CreativityTechnique where
  | random_word_association
  | reverse_brainstorming
  | lotus_blossom
  deriving DecidableEq, Repr

/-- The enum's `.value` string. -/
def CreativityTechnique.value : CreativityTechnique → String
  | .random_word_association => "random_word_association"
  | .reverse_brainstorming => "reverse_brainstorming"
  | .lotus_blossom => "lotus_blossom"

/-- One element of `suggest_random_words`' result list. -/
structure RandomWordSuggestion where
  word : String
  randomness_score : ℚ
  reasoning : String
  deriving DecidableEq, Repr

/-- `NLPProcessor.suggest_random_words` (source lines 114-140).  `sampled` is
the outcome of `random.sample(word_database, min(count * 3, len(word_database)))`
— the declared nondeterminism source, injected here as an oracle; since the
word database holds over a hundred words, the real sample is never empty.
The Python code then scores every sampled word, stably sorts by descending
`randomness_score` (`list.sort` is stable) and keeps the top `count`. -/
def suggest_random_words (problem_text : String) (sampled : List String)
    (count : ℕ) : List RandomWordSuggestion :=
  let domain_scores := categorize_problem problem_text
  let primary_domain := primaryDomain domain_scores
  let suggested_words := sampled.map (fun w =>
    { word := w
      randomness_score := 1 - calculate_similarity problem_text w
      reasoning := "Low similarity to '" ++ primary_domain ++
        "' domain ensures unexpected connections" : RandomWordSuggestion })
  (suggested_words.insertionSort
      (fun a b => b.randomness_score ≤ a.randomness_score)).take count

/-- The values stored in a session's `session_data` dict.  The Python dict is
heterogeneous; this sum covers every shape the orchestrator ever stores. -/
inductive SDVal where
  | str (s : String)
  | strList (l : List String)
  | strMap (m : List (String × String))
  | analysis (w : RandomWordSuggestion)
  | preserved (technique : String) (ideas_count : ℕ)
  deriving DecidableEq, Repr

/-- One entry of `session.ideas_generated` (source lines 733-739). -/
structure IdeaRecord where
  step : ℕ
  timestamp : ℕ
  idea : String
  participant : String
  nlp_analysis : IdeaAnalysis
  deriving DecidableEq, Repr

/-- The `CreativitySession` dataclass (source lines 25-45); `session_data` is
the technique-specific dict the spec calls `technique_data`. -/
structure CreativitySession where
  session_id : String
  technique : CreativityTechnique
  problem_statement : String
  start_time : ℕ
  end_time : Option ℕ
  participants : List String
  ideas_generated : List IdeaRecord
  current_step : ℕ
  total_steps : ℕ
  session_data : List (String × SDVal)
  deriving DecidableEq, Repr

/-- The per-technique entry of `_initialize_instructions` (source lines
320-385).  The `tips` list is omitted: no modelled operation ever reads it. -/
structure TechniqueInstructions where
  overview : String
  when_to_use : String
  duration : String
  participants : String
  steps : List String
  deriving DecidableEq, Repr

/-- `self.instructions`, keyed by technique (the Python dict key is
`technique.value`).  The step strings are verbatim from the source. -/
def instructions : CreativityTechnique → TechniqueInstructions
  | .random_word_association =>
    { overview := "Uses random stimulus words to trigger new associations and breakthrough thinking"
      when_to_use := "When stuck in conventional thinking patterns or need fresh perspectives"
      duration := "30-45 minutes"
      participants := "Works with 1-8 people"
      steps :=
        ["Clearly define the problem or challenge",
         "Generate or select a random word (system provides this)",
         "Spend 5 minutes freely associating between word and problem",
         "Identify interesting connections and metaphors",
         "Develop 3-5 concrete ideas from strongest associations",
         "Evaluate and refine most promising concepts"] }
  | .reverse_brainstorming =>
    { overview := "Approaches problems by first considering how to cause or worsen them"
      when_to_use := "When direct brainstorming isn't working or to identify hidden assumptions"
      duration := "45-60 minutes"
      participants := "Works best with 3-10 people"
      steps :=
        ["Clearly state the original problem",
         "Reverse the problem: 'How could we make this worse?'",
         "Brainstorm ways to cause failure or create more problems",
         "Don't filter - embrace destructive and absurd ideas",
         "For each 'anti-solution', identify the opposite action",
         "Transform reversed ideas into practical solutions"] }
  | .lotus_blossom =>
    { overview := "Systematic idea expansion using 8x8 matrix to explore problem dimensions"
      when_to_use := "For complex problems requiring comprehensive exploration"
      duration := "60-90 minutes"
      participants := "Works with 2-12 people, best with 4-8"
      steps :=
        ["Place core problem in center of 3x3 grid",
         "Identify 8 key themes/aspects around the center",
         "Create new 3x3 grid for each theme",
         "Generate 8 ideas/solutions for each theme",
         "Look for patterns and connections across grids",
         "Cluster related ideas into solution families"] }

/-- The orchestrator's mutable state: `self.active_sessions` (a dict),
`self.session_history` (a list), plus the injected clock (`datetime.now()` /
`time.time()`, in whole seconds) and the `random.sample` oracle. -/
structure TechState where
  active_sessions : List (String × CreativitySession)
  session_history : List CreativitySession
  now : ℕ
  sampled : List String
  deriving DecidableEq, Repr

def activeGet (st : TechState) (sid : String) : Option CreativitySession :=
  dictGet st.active_sessions sid

def setActive (st : TechState) (sid : String) (s : CreativitySession) : TechState :=
  { st with active_sessions := dictSet st.active_sessions sid s }

/-- The technique-specific seed of `session_data` written by `start_session`
(source lines 424-445), keys in the source's insertion order. -/
def freshSessionData (technique : CreativityTechnique)
    (problem_statement : String) : List (String × SDVal) :=
  match technique with
  | .random_word_association =>
    [("random_words", .strList []),
     ("associations", .strMap []),
     ("selected_ideas", .strList [])]
  | .reverse_brainstorming =>
    [("reversed_problem", .str ""),
     ("anti_solutions", .strList []),
     ("reversed_solutions", .strList []),
     ("final_solutions", .strList [])]
  | .lotus_blossom =>
    [("core_problem", .str problem_statement),
     ("primary_themes", .strList []),
     ("theme_grids", .strMap []),
     ("connections", .strList []),
     ("solution_clusters", .strList [])]

/-- The id `start_session` uses: the given one, or
`f"{technique.value}_{int(time.time())}"`. -/
def generatedId (st : TechState) (technique : CreativityTechnique)
    (session_id : Option String) : String :=
  session_id.getD (technique.value ++ "_" ++ toString st.now)

/-- The `CreativitySession` record `start_session` builds. -/
def freshSession (st : TechState) (technique : CreativityTechnique)
    (problem_statement : String) (participants : Option (List String))
    (session_id : Option String) : CreativitySession :=
  { session_id := generatedId st technique session_id
    technique := technique
    problem_statement := problem_statement
    start_time := st.now
    end_time := none
    participants := participants.getD ["default_user"]
    ideas_generated := []
    current_step := 0
    total_steps := (instructions technique).steps.length
    session_data := freshSessionData technique problem_statement }

/-- `StructuredCreativityTechniques.start_session` (source lines 387-449).
`session_id = None` generates `f"{technique.value}_{int(time.time())}"`;
`participants = None` defaults to `["default_user"]`.  There is no
duplicate-id check of any kind: the dict assignment
`self.active_sessions[session_id] = session` replaces any session already
stored under that id. -/
def start_session (st : TechState) (technique : CreativityTechnique)
    (problem_statement : String) (participants : Option (List String))
    (session_id : Option String) : TechState × String :=
  (setActive st (generatedId st technique session_id)
    (freshSession st technique problem_statement participants session_id),
   generatedId st technique session_id)

/-! ## Step-action dispatch

The handlers `_get_random_word_action`, `_get_reverse_brainstorming_action`
and `_get_lotus_blossom_action` (source lines 504-706).  Only the `action`
tag, the selected word and the session mutations are modelled: the
remaining payload entries (message / prompt / instruction / questions /
examples / criteria strings, and the pure `generate_follow_up_questions`
and association-quality computations of steps 1 and 3) are constant or
read-only and no claim mentions them. -/

structure ActionPayload where
  action : String
  word : Option String := none
  deriving DecidableEq, Repr

def getStrList (d : List (String × SDVal)) (k : String) : List String :=
  match dictGet d k with
  | some (.strList l) => l
  | _ => []

def getStrMap (d : List (String × SDVal)) (k : String) : List (String × String) :=
  match dictGet d k with
  | some (.strMap m) => m
  | _ => []

def getStr (d : List (String × SDVal)) (k : String) : String :=
  match dictGet d k with
  | some (.str s) => s
  | _ => ""

/-- `_get_random_word_action` (source lines 504-597).  At step 1 the handler
calls `suggest_random_words`, appends the chosen word to
`session_data["random_words"]` and stores `session_data["word_analysis"]` —
the one status computation that mutates the session.  `none` models the
`IndexError` Python would raise at `word_suggestions[0]` were the sample
empty (unreachable: the word database is non-empty). -/
def rwaAction (sampled : List String) (s : CreativitySession) (step : ℕ) :
    Option (CreativitySession × ActionPayload) :=
  if step = 0 then some (s, { action := "acknowledge_problem" })
  else if step = 1 then
    match suggest_random_words s.problem_statement sampled 3 with
    | [] => none
    | w :: _ =>
      let sd := dictSet s.session_data "random_words"
        (.strList (getStrList s.session_data "random_words" ++ [w.word]))
      let sd := dictSet sd "word_analysis" (.analysis w)
      some ({ s with session_data := sd },
        { action := "random_word_generated", word := some w.word })
  else if step = 2 then some (s, { action := "collect_associations" })
  else if step = 3 then some (s, { action := "develop_ideas" })
  else if step = 4 then some (s, { action := "evaluate_ideas" })
  else if step = 5 then some (s, { action := "complete" })
  else some (s, { action := "complete" })

/-- `_get_reverse_brainstorming_action` (source lines 599-653).  Step 1
writes the reversed problem statement into `session_data`. -/
def revAction (s : CreativitySession) (step : ℕ) :
    CreativitySession × ActionPayload :=
  if step = 0 then (s, { action := "state_original_problem" })
  else if step = 1 then
    let reversed_problem :=
      "How could we make '" ++ s.problem_statement ++ "' much worse?"
    ({ s with session_data :=
        dictSet s.session_data "reversed_problem" (.str reversed_problem) },
     { action := "reverse_problem" })
  else if step = 2 then (s, { action := "generate_anti_solutions" })
  else if step = 3 then (s, { action := "reverse_analysis" })
  else if step = 4 then (s, { action := "synthesize_solutions" })
  else if step = 5 then (s, { action := "feasibility_check" })
  else (s, { action := "complete" })

/-- `_get_lotus_blossom_action` (source lines 655-706): pure. -/
def lotusAction (s : CreativitySession) (step : ℕ) :
    CreativitySession × ActionPayload :=
  if step = 0 then (s, { action := "establish_core_problem" })
  else if step = 1 then (s, { action := "identify_themes" })
  else if step = 2 then (s, { action := "expand_themes" })
  else if step = 3 then (s, { action := "map_connections" })
  else if step = 4 then (s, { action := "cluster_solutions" })
  else if step = 5 then (s, { action := "implementation_path" })
  else (s, { action := "complete" })

/-- `_get_next_action` (source lines 490-502). -/
def get_next_action (sampled : List String) (s : CreativitySession) :
    Option (CreativitySession × ActionPayload) :=
  match s.technique with
  | .random_word_association => rwaAction sampled s s.current_step
  | .reverse_brainstorming => some (revAction s s.current_step)
  | .lotus_blossom => some (lotusAction s s.current_step)

/-- `_get_session_duration` (source lines 848-852): minutes, one decimal. -/
def get_session_duration (now : ℕ) (s : CreativitySession) : ℚ :=
  pyRound 1 ((((s.end_time.getD now) : ℚ) - (s.start_time : ℚ)) / 60)

/-- The dict returned by `get_session_status` (source lines 471-488).
`current_step` is the 1-indexed display value `session.current_step + 1`;
the `technique_info` sub-dict (three constant catalog strings) is elided. -/
structure StatusInfo where
  session_id : String
  technique : String
  problem_statement : String
  current_step : ℕ
  total_steps : ℕ
  progress_percentage : ℚ
  current_instruction : String
  next_action : ActionPayload
  participants : List String
  ideas_generated : ℕ
  session_duration_minutes : ℚ
  deriving DecidableEq, Repr

/-- The technique-specific entries `_generate_session_summary` merges into
the summary (source lines 827-844). -/
inductive TechExtras where
  | rwa (random_words_used : List String) (key_associations : List String)
      (selected_ideas : List String)
  | reverse (reversed_problem : String) (anti_solutions_count : ℕ)
      (final_solutions_count : ℕ)
  | lotus (themes_identified : ℕ) (theme_grids_completed : ℕ)
      (solution_clusters : ℕ)
  deriving DecidableEq, Repr

/-- `_generate_session_summary` (source lines 812-846).  `completion_rate`
is `(current_step / total_steps) * 100`, not rounded.  (With
`total_steps = 0` Python would raise `ZeroDivisionError`; sessions always
have 6 steps, and rational division by zero yields 0 here.) -/
structure SessionSummary where
  technique_used : String
  problem_statement : String
  duration_minutes : ℚ
  participants : List String
  total_ideas_generated : ℕ
  steps_completed : ℕ
  completion_rate : ℚ
  extras : TechExtras
  deriving DecidableEq, Repr

def generate_session_summary (now : ℕ) (s : CreativitySession) : SessionSummary :=
  { technique_used := s.technique.value
    problem_statement := s.problem_statement
    duration_minutes := get_session_duration now s
    participants := s.participants
    total_ideas_generated := s.ideas_generated.length
    steps_completed := s.current_step
    completion_rate := ((s.current_step : ℚ) / (s.total_steps : ℚ)) * 100
    extras :=
      match s.technique with
      | .random_word_association =>
        .rwa (getStrList s.session_data "random_words")
          ((getStrMap s.session_data "associations").map (fun p => p.1))
          (getStrList s.session_data "selected_ideas")
      | .reverse_brainstorming =>
        .reverse (getStr s.session_data "reversed_problem")
          (getStrList s.session_data "anti_solutions").length
          (getStrList s.session_data "final_solutions").length
      | .lotus_blossom =>
        .lotus (getStrList s.session_data "primary_themes").length
          (getStrMap s.session_data "theme_grids").length
          (getStrList s.session_data "solution_clusters").length }

/-- Modelled from the spec: `_generate_nlp_insights` is called by
`complete_session` (source line 792) but is defined nowhere in the
repository — running the code raises `AttributeError` there.  Section 4.4.2
of the specification describes the missing piece: "merge in NLP insights
(idea clusters via `detect_idea_clusters` over all idea texts, and average
idea quality)"; this definition follows those words. -/
structure NLPInsights where
  idea_clusters : List Cluster
  avg_idea_quality : ℚ
  deriving DecidableEq, Repr

def generate_nlp_insights (s : CreativitySession) : NLPInsights :=
  { idea_clusters :=
      detect_idea_clusters (s.ideas_generated.map (fun i => i.idea)) (3/10)
    avg_idea_quality :=
      if s.ideas_generated.length = 0 then 0
      else (s.ideas_generated.map (fun i => i.nlp_analysis.quality_score)).sum
        / (s.ideas_generated.length : ℚ) }

/-- The completion dict of `complete_session` (source lines 799-810).  Its
Python `"status": "completed"` entry is carried by the `completionDict`
constructor below; the insights, which Python merges into the summary dict
by `summary.update(nlp_insights)` under keys the repository does not fix,
sit in their own field. -/
structure CompletionInfo where
  session_id : String
  technique : String
  summary : SessionSummary
  insights : NLPInsights
  next_options : List String
  deriving DecidableEq, Repr

/-- A dict returned normally by an orchestrator operation: either the
`{"error": ...}` dict, a status dict, or the completion dict. -/
inductive ResultDict where
  | errorDict (msg : String)
  | statusDict (s : StatusInfo)
  | completionDict (c : CompletionInfo)
  deriving DecidableEq, Repr

/-- The observable outcome of an operation: `raised` models a propagating
Python exception, `dict` a normally returned dictionary. -/
inductive PyResult where
  | raised (msg : String)
  | dict (d : ResultDict)
  deriving DecidableEq, Repr

/-- `get_session_status` (source lines 451-488).  An unknown id returns —
does not raise — the `{"error": "Session not found"}` dict.  The handler
call can mutate the session (Random Word Association at step 1); the
mutated session is what remains stored. -/
def get_session_status (st : TechState) (sid : String) : TechState × PyResult :=
  match activeGet st sid with
  | none => (st, .dict (.errorDict "Session not found"))
  | some session =>
    let current_step := session.current_step
    let total_steps := session.total_steps
    let progress_percentage : ℚ := ((current_step : ℚ) / (total_steps : ℚ)) * 100
    let current_instruction :=
      if current_step < total_steps then
        (instructions session.technique).steps.getD current_step ""
      else "Session complete"
    match get_next_action st.sampled session with
    | none => (st, .raised "IndexError")
    | some (session', next_action) =>
      (setActive st sid session',
       .dict (.statusDict
         { session_id := sid
           technique := session.technique.value
           problem_statement := session.problem_statement
           current_step := current_step + 1
           total_steps := total_steps
           progress_percentage := pyRound 1 progress_percentage
           current_instruction := current_instruction
           next_action := next_action
           participants := session.participants
           ideas_generated := session.ideas_generated.length
           session_duration_minutes := get_session_duration st.now session }))

/-- The step-data payload.  Python hands `submit_step_data` a free-form
dict; only the keys the orchestrator ever reads are modelled, and a `none`
field models an absent key (read via `.get(key, default)`). -/
structure StepData where
  associations : Option (List (String × String)) := none
  ideas : Option (List String) := none
  participant : Option String := none
  anti_solutions : Option (List String) := none
  reversed_solutions : Option (List String) := none
  final_solutions : Option (List String) := none
  themes : Option (List String) := none
  theme_grids : Option (List (String × String)) := none
  connections : Option (List String) := none
  solution_clusters : Option (List String) := none
  deriving DecidableEq, Repr

/-- `session.session_data[k] = v`. -/
def setSD (session : CreativitySession) (k : String) (v : SDVal) :
    CreativitySession :=
  { session with session_data := dictSet session.session_data k v }

/-- `_store_step_data` (source lines 751-778): per technique and step, the
stored field is replaced wholesale by the submitted value, with an empty
default when the field is absent; at any other step nothing is stored. -/
def store_step_data (session : CreativitySession) (step_data : StepData) :
    CreativitySession :=
  let step := session.current_step
  match session.technique with
  | .random_word_association =>
    if step = 2 then
      setSD session "associations" (.strMap (step_data.associations.getD []))
    else if step = 3 then
      setSD session "selected_ideas" (.strList (step_data.ideas.getD []))
    else session
  | .reverse_brainstorming =>
    if step = 2 then
      setSD session "anti_solutions" (.strList (step_data.anti_solutions.getD []))
    else if step = 3 then
      setSD session "reversed_solutions" (.strList (step_data.reversed_solutions.getD []))
    else if step = 4 then
      setSD session "final_solutions" (.strList (step_data.final_solutions.getD []))
    else session
  | .lotus_blossom =>
    if step = 1 then
      setSD session "primary_themes" (.strList (step_data.themes.getD []))
    else if step = 2 then
      setSD session "theme_grids" (.strMap (step_data.theme_grids.getD []))
    else if step = 3 then
      setSD session "connections" (.strList (step_data.connections.getD []))
    else if step = 4 then
      setSD session "solution_clusters" (.strList (step_data.solution_clusters.getD []))
    else session

/-- `complete_session` (source lines 780-810): sets `end_time`, builds the
summary (with the spec-modelled NLP insights, see `generate_nlp_insights`),
moves the session from the active dict to the history list, and returns the
completion dict. -/
def complete_session (st : TechState) (sid : String) : TechState × PyResult :=
  match activeGet st sid with
  | none => (st, .dict (.errorDict "Session not found"))
  | some session =>
    let session := { session with end_time := some st.now }
    let summary := generate_session_summary st.now session
    let insights := generate_nlp_insights session
    let st' := { st with
      session_history := st.session_history ++ [session]
      active_sessions := dictErase st.active_sessions sid }
    (st', .dict (.completionDict
      { session_id := sid
        technique := session.technique.value
        summary := summary
        insights := insights
        next_options :=
          ["Start new session with different technique",
           "Export session results",
           "Hybrid approach: combine techniques",
           "Develop ideas further with team"] }))

/-- `submit_step_data` (source lines 708-749): store the step's field, score
and append any submitted ideas, advance `current_step` by one, then either
finalize (when `current_step` reaches `total_steps`) or return the next
status.  An unknown id returns the `{"error": ...}` dict. -/
def submit_step_data (st : TechState) (sid : String) (step_data : StepData) :
    TechState × PyResult :=
  match activeGet st sid with
  | none => (st, .dict (.errorDict "Session not found"))
  | some session =>
    let session := store_step_data session step_data
    let toRecord : String → IdeaRecord := fun idea =>
      { step := session.current_step
        timestamp := st.now
        idea := idea
        participant := step_data.participant.getD "unknown"
        nlp_analysis := analyze_idea_quality idea session.problem_statement }
    let session :=
      match step_data.ideas with
      | none => session
      | some ideas =>
        { session with
            ideas_generated := session.ideas_generated ++ ideas.map toRecord }
    let session := { session with current_step := session.current_step + 1 }
    let st' := setActive st sid session
    if session.total_steps ≤ session.current_step then complete_session st' sid
    else get_session_status st' sid

/-- `switch_technique` (source lines 873-919): raises `ValueError` (the
`Except.error` branch) on an unknown id; otherwise snapshots the ideas when
`preserve_data`, finalizes the current session, starts a new one under
`f"hybrid_{int(time.time())}"` with the same problem and participants, and
— only when the snapshot is non-empty — appends the preserved ideas and
records `session_data["preserved_from_previous"]`. -/
def switch_technique (st : TechState) (sid : String)
    (new_technique : CreativityTechnique) (preserve_data : Bool) :
    TechState × Except String String :=
  match activeGet st sid with
  | none => (st, .error "Session not found")
  | some current_session =>
    let hybrid_session_id := "hybrid_" ++ toString st.now
    let preserved_ideas :=
      if preserve_data then current_session.ideas_generated else []
    let st1 := (complete_session st sid).1
    let stNew := start_session st1 new_technique current_session.problem_statement
      (some current_session.participants) (some hybrid_session_id)
    let st2 := stNew.1
    let new_session_id := stNew.2
    if preserved_ideas.isEmpty then (st2, .ok new_session_id)
    else
      match activeGet st2 new_session_id with
      | none => (st2, .ok new_session_id)
      | some new_session =>
        let new_session := { new_session with
          ideas_generated := new_session.ideas_generated ++ preserved_ideas
          session_data := dictSet new_session.session_data
            "preserved_from_previous"
            (.preserved current_session.technique.value preserved_ideas.length) }
        (setActive st2 new_session_id new_session, .ok new_session_id)

/-- A sequence of `submit_step_data` calls on one session, returning the
final state and the last call's result (the empty list is never used). -/
def submitMany : TechState → String → List StepData → TechState × PyResult
  | st, _, [] => (st, .dict (.errorDict "no step data"))
  | st, sid, d :: ds =>
    let r := submit_step_data st sid d
    if ds.isEmpty then r else submitMany r.1 sid ds

/-! ## Dictionary lemmas -/

theorem dictGet_nil {V : Type} (k : String) : dictGet ([] : List (String × V)) k = none := rfl

theorem dictGet_cons {V : Type} (p : String × V) (d : List (String × V)) (k : String) :
    dictGet (p :: d) k = if p.1 = k then some p.2 else dictGet d k := by
  simp only [dictGet, List.find?]
  by_cases h : p.1 = k
  · simp [h]
  · simp [h, beq_eq_false_iff_ne.mpr h]

theorem dictGet_dictSet_self {V : Type} (d : List (String × V)) (k : String) (v : V) :
    dictGet (dictSet d k v) k = some v := by
  induction d with
  | nil => simp [dictSet, dictGet_cons]
  | cons p d ih =>
    by_cases h : p.1 = k
    · simp [dictSet, h, dictGet_cons]
    · simp [dictSet, h, dictGet_cons, ih]

theorem dictGet_dictSet_ne {V : Type} (d : List (String × V)) (k k' : String)
    (v : V) (h : k' ≠ k) : dictGet (dictSet d k v) k' = dictGet d k' := by
  have hk : ¬ k = k' := fun e => h e.symm
  induction d with
  | nil => simp [dictSet, dictGet_cons, dictGet_nil, hk]
  | cons p d ih =>
    by_cases hp : p.1 = k
    · rw [dictSet, if_pos hp, dictGet_cons, dictGet_cons, if_neg hk,
        if_neg (hp ▸ hk)]
    · rw [dictSet, if_neg hp, dictGet_cons, dictGet_cons, ih]

theorem dictGet_dictErase_self {V : Type} (d : List (String × V)) (k : String) :
    dictGet (dictErase d k) k = none := by
  induction d with
  | nil => rfl
  | cons p d ih =>
    by_cases h : p.1 = k
    · simpa [dictErase, h] using ih
    · simpa [dictErase, List.filter_cons, h, dictGet_cons] using ih

theorem keys_dictSet_of_mem {V : Type} (d : List (String × V)) (k : String) (v : V)
    (h : k ∈ d.map Prod.fst) :
    (dictSet d k v).map Prod.fst = d.map Prod.fst := by
  induction d with
  | nil => simp at h
  | cons p d ih =>
    by_cases hp : p.1 = k
    · simp [dictSet, hp]
    · rcases List.mem_map.mp h with ⟨q, hq, hqk⟩
      rcases List.mem_cons.mp hq with rfl | hq'
      · exact absurd hqk hp
      · simp [dictSet, hp, ih (List.mem_map.mpr ⟨q, hq', hqk⟩)]

theorem keys_dictSet_of_not_mem {V : Type} (d : List (String × V)) (k : String) (v : V)
    (h : k ∉ d.map Prod.fst) :
    (dictSet d k v).map Prod.fst = d.map Prod.fst ++ [k] := by
  induction d with
  | nil => simp [dictSet]
  | cons p d ih =>
    simp only [List.map_cons, List.mem_cons] at h
    push_neg at h
    have hp : ¬ p.1 = k := fun e => h.1 e.symm
    simp [dictSet, hp, ih h.2]

/-! ## Similarity lemmas (claim C5's parts) -/

/-- `calculate_similarity` with its `let`s unfolded. -/
theorem calculate_similarity_def (a b : String) :
    calculate_similarity a b =
      if (extract_keywords a).toFinset = ∅ ∨ (extract_keywords b).toFinset = ∅
      then 0
      else if 0 < ((extract_keywords a).toFinset ∪ (extract_keywords b).toFinset).card
      then ((((extract_keywords a).toFinset ∩ (extract_keywords b).toFinset).card : ℚ)
        / (((extract_keywords a).toFinset ∪ (extract_keywords b).toFinset).card : ℚ))
      else 0 := rfl

theorem calculate_similarity_comm (a b : String) :
    calculate_similarity a b = calculate_similarity b a := by
  rw [calculate_similarity_def, calculate_similarity_def,
    Finset.inter_comm, Finset.union_comm]
  by_cases h1 : (extract_keywords a).toFinset = ∅ <;>
    by_cases h2 : (extract_keywords b).toFinset = ∅ <;> simp [h1, h2]

theorem calculate_similarity_nonneg (a b : String) :
    0 ≤ calculate_similarity a b := by
  rw [calculate_similarity_def]
  split_ifs with h h'
  · exact le_refl 0
  · positivity
  · exact le_refl 0

theorem calculate_similarity_le_one (a b : String) :
    calculate_similarity a b ≤ 1 := by
  rw [calculate_similarity_def]
  split_ifs with h h'
  · exact zero_le_one
  · rw [div_le_one (by exact_mod_cast h')]
    exact_mod_cast Finset.card_le_card
      (Finset.inter_subset_union (s := (extract_keywords a).toFinset)
        (t := (extract_keywords b).toFinset))
  · exact zero_le_one

theorem calculate_similarity_empty (a b : String)
    (h : extract_keywords a = [] ∨ extract_keywords b = []) :
    calculate_similarity a b = 0 := by
  rw [calculate_similarity_def]
  rcases h with h | h <;> rw [if_pos] <;> simp [h]

theorem calculate_similarity_self (x : String)
    (h : extract_keywords x ≠ []) : calculate_similarity x x = 1 := by
  rw [calculate_similarity_def]
  have hne : (extract_keywords x).toFinset ≠ ∅ := by
    simpa [← List.toFinset_eq_empty_iff] using h
  rw [if_neg (by simp [hne]), Finset.inter_self, Finset.union_self]
  have hpos : 0 < (extract_keywords x).toFinset.card :=
    Finset.card_pos.mpr (Finset.nonempty_iff_ne_empty.mpr hne)
  rw [if_pos hpos, div_self (by exact_mod_cast hpos.ne')]

/-! ## Rounding bounds -/

/-- `roundHalfEven` with its `let`s unfolded. -/
theorem roundHalfEven_def (x : ℚ) :
    roundHalfEven x =
      if x - (⌊x⌋ : ℚ) < 1/2 then ⌊x⌋
      else if 1/2 < x - (⌊x⌋ : ℚ) then ⌊x⌋ + 1
      else if ⌊x⌋ % 2 = 0 then ⌊x⌋ else ⌊x⌋ + 1 := rfl

theorem roundHalfEven_mem (x : ℚ) (a b : ℤ) (ha : (a : ℚ) ≤ x) (hb : x ≤ (b : ℚ)) :
    a ≤ roundHalfEven x ∧ roundHalfEven x ≤ b := by
  have hfl : a ≤ ⌊x⌋ := Int.le_floor.mpr ha
  have hfb : ⌊x⌋ ≤ b := by
    have := Int.floor_le_floor (α := ℚ) hb
    simpa using this
  rw [roundHalfEven_def]
  split_ifs with h1 h2 h3
  · exact ⟨hfl, hfb⟩
  · refine ⟨le_trans hfl (by omega), ?_⟩
    have hlt : (⌊x⌋ : ℚ) < x := by
      have : (0 : ℚ) < x - ⌊x⌋ := lt_trans (by norm_num) h2
      linarith
    have : ⌊x⌋ < b := by
      have hxb : (⌊x⌋ : ℚ) < (b : ℚ) := lt_of_lt_of_le hlt hb
      exact_mod_cast hxb
    omega
  · exact ⟨hfl, hfb⟩
  · refine ⟨le_trans hfl (by omega), ?_⟩
    have hlt : (⌊x⌋ : ℚ) < x := by
      have hf : x - ⌊x⌋ = 1/2 := le_antisymm (not_lt.mp h2) (not_lt.mp h1)
      have : (0 : ℚ) < x - ⌊x⌋ := by rw [hf]; norm_num
      linarith
    have : ⌊x⌋ < b := by
      have hxb : (⌊x⌋ : ℚ) < (b : ℚ) := lt_of_lt_of_le hlt hb
      exact_mod_cast hxb
    omega

theorem pyRound_mem_unit (d : ℕ) (q : ℚ) (h0 : 0 ≤ q) (h1 : q ≤ 1) :
    0 ≤ pyRound d q ∧ pyRound d q ≤ 1 := by
  have hp : (0 : ℚ) < (10 : ℚ) ^ d := by positivity
  have hmem := roundHalfEven_mem (q * 10 ^ d) 0 (10 ^ d)
    (by simpa using mul_nonneg h0 hp.le)
    (by push_cast; nlinarith)
  constructor
  · exact div_nonneg (by exact_mod_cast hmem.1) hp.le
  · rw [pyRound, div_le_one hp]
    have h2 := hmem.2
    have : ((roundHalfEven (q * 10 ^ d) : ℤ) : ℚ) ≤ (((10 : ℤ) ^ d : ℤ) : ℚ) := by
      exact_mod_cast h2
    push_cast at this
    exact this

/-! ## `firstDedup` and the stability of the keyword ordering -/

theorem mem_firstDedup {l : List String} {x : String} :
    x ∈ firstDedup l ↔ x ∈ l := by
  induction l with
  | nil => simp [firstDedup]
  | cons a l ih =>
    by_cases hx : x = a
    · simp [firstDedup, hx]
    · simp [firstDedup, hx, List.mem_filter, ih]

theorem firstDedup_nodup (l : List String) : (firstDedup l).Nodup := by
  induction l with
  | nil => simp [firstDedup]
  | cons a l ih =>
    refine List.Nodup.cons ?_ (ih.filter _)
    intro h
    have := List.of_mem_filter h
    simp at this

theorem firstDedup_pairwise_indexOf (l : List String) :
    (firstDedup l).Pairwise (fun x y => l.indexOf x < l.indexOf y) := by
  induction l with
  | nil => simp [firstDedup]
  | cons a l ih =>
    rw [firstDedup, List.pairwise_cons]
    constructor
    · intro y hy
      have hmem := List.mem_filter.mp hy
      have hya : y ≠ a := by simpa using hmem.2
      rw [List.indexOf_cons_self, List.indexOf_cons_ne _ (fun e => hya e.symm)]
      exact Nat.succ_pos _
    · have hfil : ((firstDedup l).filter (fun b => b ≠ a)).Pairwise
          (fun x y => l.indexOf x < l.indexOf y) :=
        ih.sublist (List.filter_sublist _)
      refine hfil.imp_of_mem ?_
      intro x y hx hy hlt
      have hxa : x ≠ a := by simpa using (List.mem_filter.mp hx).2
      have hya : y ≠ a := by simpa using (List.mem_filter.mp hy).2
      rw [List.indexOf_cons_ne _ (fun e => hxa e.symm),
        List.indexOf_cons_ne _ (fun e => hya e.symm)]
      omega
theorem mem_dropWhile_rel {α : Type} (r : α → α → Prop) [DecidableRel r]
    [IsTrans α r] (x : α) (S : List α) (hs : S.Sorted r) :
    ∀ b ∈ S.dropWhile (fun y => ¬ r x y), r x b := by
  induction S with
  | nil => intro b hb; simp at hb
  | cons s S ih =>
    intro b hb
    rw [List.dropWhile_cons] at hb
    by_cases hrs : r x s
    · rw [if_neg (by simpa using hrs)] at hb
      rcases List.mem_cons.mp hb with rfl | hbS
      · exact hrs
      · exact Trans.trans hrs (List.rel_of_sorted_cons hs b hbS)
    · rw [if_pos (by simpa using hrs)] at hb
      exact ih (List.sorted_cons.mp hs).2 b hb

theorem insertionSort_stable_pairwise (cnt : String → ℕ) :
    ∀ l : List String, l.Nodup →
      (l.insertionSort (fun a b => cnt b ≤ cnt a)).Pairwise
        (fun a b => cnt b < cnt a ∨ (cnt a = cnt b ∧ l.indexOf a < l.indexOf b)) := by
  intro l
  induction l with
  | nil => intro _; simp
  | cons x l ih =>
    intro h
    have hx : x ∉ l := (List.nodup_cons.mp h).1
    have hln : l.Nodup := (List.nodup_cons.mp h).2
    have IH := ih hln
    haveI : IsTotal String (fun a b => cnt b ≤ cnt a) :=
      ⟨fun a b => le_total (cnt b) (cnt a)⟩
    haveI : IsTrans String (fun a b => cnt b ≤ cnt a) :=
      ⟨fun _ _ _ hab hbc => le_trans hbc hab⟩
    have hsorted : (l.insertionSort (fun a b => cnt b ≤ cnt a)).Sorted
        (fun a b => cnt b ≤ cnt a) := List.sorted_insertionSort _ l
    have hmemS : ∀ a ∈ l.insertionSort (fun a b => cnt b ≤ cnt a), a ∈ l :=
      fun a ha => (List.perm_insertionSort _ l).mem_iff.mp ha
    rw [List.insertionSort, List.orderedInsert_eq_take_drop]
    set S := l.insertionSort (fun a b => cnt b ≤ cnt a) with hS
    set T := S.takeWhile (fun b => ¬ cnt b ≤ cnt x) with hT
    set D := S.dropWhile (fun b => ¬ cnt b ≤ cnt x) with hD
    have hTD : T ++ D = S := List.takeWhile_append_dropWhile _ _
    have hTsub : ∀ a ∈ T, a ∈ l :=
      fun a ha => hmemS a ((List.takeWhile_sublist _).subset ha)
    have hDsub : ∀ a ∈ D, a ∈ l :=
      fun a ha => hmemS a ((List.dropWhile_sublist _).subset ha)
    have hPT : T.Pairwise (fun a b => cnt b < cnt a ∨
        (cnt a = cnt b ∧ l.indexOf a < l.indexOf b)) :=
      IH.sublist (List.takeWhile_sublist _)
    have hPD : D.Pairwise (fun a b => cnt b < cnt a ∨
        (cnt a = cnt b ∧ l.indexOf a < l.indexOf b)) :=
      IH.sublist (List.dropWhile_sublist _)
    have hd : ∀ b ∈ D, cnt b ≤ cnt x :=
      fun b hb => mem_dropWhile_rel _ x S hsorted b hb
    have ht : ∀ b ∈ T, cnt x < cnt b := by
      intro b hb
      have := List.mem_takeWhile_imp hb
      simpa using this
    have hlift : ∀ a ∈ l, ∀ b ∈ l,
        (cnt b < cnt a ∨ (cnt a = cnt b ∧ l.indexOf a < l.indexOf b)) →
        (cnt b < cnt a ∨ (cnt a = cnt b ∧ (x :: l).indexOf a < (x :: l).indexOf b)) := by
      intro a ha b hbm hp
      rcases hp with hlt | ⟨he, hi⟩
      · exact Or.inl hlt
      · refine Or.inr ⟨he, ?_⟩
        rw [List.indexOf_cons_ne _ (fun e : x = a => hx (e ▸ ha)),
          List.indexOf_cons_ne _ (fun e : x = b => hx (e ▸ hbm))]
        omega
    rw [List.pairwise_append]
    refine ⟨hPT.imp_of_mem (fun {a b} ha hb hp =>
      hlift a (hTsub a ha) b (hTsub b hb) hp), ?_, ?_⟩
    · rw [List.pairwise_cons]
      constructor
      · intro b hb
        rcases lt_or_eq_of_le (hd b hb) with hlt | heq
        · exact Or.inl hlt
        · refine Or.inr ⟨heq.symm, ?_⟩
          have hbl : b ∈ l := hDsub b hb
          rw [List.indexOf_cons_self,
            List.indexOf_cons_ne _ (fun e : x = b => hx (e ▸ hbl))]
          exact Nat.succ_pos _
      · exact hPD.imp_of_mem (fun {a b} ha hb hp =>
          hlift a (hDsub a ha) b (hDsub b hb) hp)
    · intro a ha b hb
      rcases List.mem_cons.mp hb with rfl | hbD
      · exact Or.inl (ht a ha)
      · have hcross := (List.pairwise_append.mp (hTD ▸ IH)).2.2
        exact hlift a (hTsub a ha) b (hDsub b hbD) (hcross a ha b hbD)
/-! ## Field-preservation lemmas for the orchestrator -/

/-- `_store_step_data` only touches `session_data`. -/
theorem store_step_data_fields (s : CreativitySession) (d : StepData) :
    (store_step_data s d).session_id = s.session_id ∧
    (store_step_data s d).technique = s.technique ∧
    (store_step_data s d).problem_statement = s.problem_statement ∧
    (store_step_data s d).start_time = s.start_time ∧
    (store_step_data s d).end_time = s.end_time ∧
    (store_step_data s d).participants = s.participants ∧
    (store_step_data s d).ideas_generated = s.ideas_generated ∧
    (store_step_data s d).current_step = s.current_step ∧
    (store_step_data s d).total_steps = s.total_steps := by
  unfold store_step_data
  cases htech : s.technique <;> dsimp only <;> split_ifs <;> simp [setSD, htech]

/-- The step handlers only touch `session_data`. -/
theorem get_next_action_fields (sampled : List String) (s : CreativitySession)
    (x : CreativitySession × ActionPayload)
    (h : get_next_action sampled s = some x) :
    x.1.session_id = s.session_id ∧
    x.1.technique = s.technique ∧
    x.1.problem_statement = s.problem_statement ∧
    x.1.start_time = s.start_time ∧
    x.1.end_time = s.end_time ∧
    x.1.participants = s.participants ∧
    x.1.ideas_generated = s.ideas_generated ∧
    x.1.current_step = s.current_step ∧
    x.1.total_steps = s.total_steps := by
  unfold get_next_action at h
  cases htech : s.technique <;> rw [htech] at h
  · unfold rwaAction at h
    split_ifs at h
    case _ => cases h; simp [htech]
    case _ =>
      rcases hw : suggest_random_words s.problem_statement sampled 3 with _ | ⟨w, ws⟩ <;>
        rw [hw] at h
      · exact absurd h (by simp)
      · cases h; simp [htech]
    all_goals (cases h; simp [htech])
  · unfold revAction at h
    split_ifs at h <;> (cases h; simp [htech])
  · unfold lotusAction at h
    split_ifs at h <;> (cases h; simp [htech])

/-- The session record written by `submit_step_data` before it decides
between finalization and status: stored step data, appended ideas, and the
step counter advanced by one. -/
def submittedSession (st : TechState) (s : CreativitySession)
    (step_data : StepData) : CreativitySession :=
  let s1 := store_step_data s step_data
  let s2 : CreativitySession :=
    match step_data.ideas with
    | none => s1
    | some ideas =>
      { s1 with ideas_generated := s1.ideas_generated ++
          ideas.map (fun idea =>
            { step := s1.current_step
              timestamp := st.now
              idea := idea
              participant := step_data.participant.getD "unknown"
              nlp_analysis := analyze_idea_quality idea s1.problem_statement }) }
  { s2 with current_step := s2.current_step + 1 }

theorem submit_step_data_eq (st : TechState) (sid : String)
    (step_data : StepData) (s : CreativitySession)
    (h : activeGet st sid = some s) :
    submit_step_data st sid step_data =
      if (submittedSession st s step_data).total_steps ≤
          (submittedSession st s step_data).current_step then
        complete_session (setActive st sid (submittedSession st s step_data)) sid
      else
        get_session_status (setActive st sid (submittedSession st s step_data)) sid := by
  unfold submit_step_data submittedSession
  rw [h]

theorem submittedSession_fields (st : TechState) (s : CreativitySession)
    (d : StepData) :
    (submittedSession st s d).session_id = s.session_id ∧
    (submittedSession st s d).technique = s.technique ∧
    (submittedSession st s d).problem_statement = s.problem_statement ∧
    (submittedSession st s d).end_time = s.end_time ∧
    (submittedSession st s d).current_step = s.current_step + 1 ∧
    (submittedSession st s d).total_steps = s.total_steps := by
  have hst := store_step_data_fields s d
  unfold submittedSession
  cases d.ideas <;>
    simp [hst.1, hst.2.1, hst.2.2.1, hst.2.2.2.2.1, hst.2.2.2.2.2.2.2.1,
      hst.2.2.2.2.2.2.2.2]

theorem activeGet_setActive_self (st : TechState) (sid : String)
    (s : CreativitySession) : activeGet (setActive st sid s) sid = some s :=
  dictGet_dictSet_self _ _ _

/-- After a status call the session is still active, with every field but
`session_data` unchanged (the step-1 handler of Random Word Association may
rewrite `session_data`). -/
theorem get_session_status_state (st : TechState) (sid : String)
    (s : CreativitySession) (h : activeGet st sid = some s) :
    ∃ s', activeGet (get_session_status st sid).1 sid = some s' ∧
      s'.session_id = s.session_id ∧ s'.technique = s.technique ∧
      s'.problem_statement = s.problem_statement ∧
      s'.current_step = s.current_step ∧ s'.total_steps = s.total_steps := by
  unfold get_session_status
  rw [h]
  dsimp only
  rcases hna : get_next_action st.sampled s with _ | ⟨s', a⟩
  · exact ⟨s, h, rfl, rfl, rfl, rfl, rfl⟩
  · have hfx := get_next_action_fields _ _ _ hna
    exact ⟨s', activeGet_setActive_self _ _ _, hfx.1, hfx.2.1, hfx.2.2.1,
      hfx.2.2.2.2.2.2.2.1, hfx.2.2.2.2.2.2.2.2⟩

/-- A submission that does not finish the session leaves it active with the
step counter advanced by exactly one. -/
theorem submit_status_branch (st : TechState) (sid : String) (data : StepData)
    (s : CreativitySession) (h : activeGet st sid = some s)
    (hlt : s.current_step + 1 < s.total_steps) :
    ∃ s', activeGet (submit_step_data st sid data).1 sid = some s' ∧
      s'.session_id = s.session_id ∧ s'.technique = s.technique ∧
      s'.problem_statement = s.problem_statement ∧
      s'.current_step = s.current_step + 1 ∧ s'.total_steps = s.total_steps := by
  have hf := submittedSession_fields st s data
  rw [submit_step_data_eq st sid data s h,
    if_neg (by rw [hf.2.2.2.2.1, hf.2.2.2.2.2]; omega)]
  rcases get_session_status_state (setActive st sid (submittedSession st s data))
    sid (submittedSession st s data) (activeGet_setActive_self _ _ _) with
    ⟨s', hs', h1, h2, h3, h4, h5⟩
  exact ⟨s', hs', h1.trans hf.1, h2.trans hf.2.1, h3.trans hf.2.2.1,
    h4.trans hf.2.2.2.2.1, h5.trans hf.2.2.2.2.2⟩

/-- A submission that reaches `total_steps` finalizes the session: it leaves
the active store, is appended to the history with `end_time` set, and the
call returns the completion dict. -/
theorem submit_complete_branch (st : TechState) (sid : String) (data : StepData)
    (s : CreativitySession) (h : activeGet st sid = some s)
    (hge : s.total_steps ≤ s.current_step + 1) :
    activeGet (submit_step_data st sid data).1 sid = none ∧
    (∃ s', (submit_step_data st sid data).1.session_history.getLast? = some s' ∧
      s'.session_id = s.session_id ∧ s'.current_step = s.current_step + 1 ∧
      s'.total_steps = s.total_steps ∧ s'.end_time = some st.now) ∧
    (∃ c, (submit_step_data st sid data).2 = .dict (.completionDict c) ∧
      c.summary.completion_rate =
        (((s.current_step : ℚ) + 1) / (s.total_steps : ℚ)) * 100 ∧
      c.session_id = sid) := by
  have hf := submittedSession_fields st s data
  rw [submit_step_data_eq st sid data s h,
    if_pos (by rw [hf.2.2.2.2.1, hf.2.2.2.2.2]; omega)]
  unfold complete_session
  rw [activeGet_setActive_self]
  dsimp only
  refine ⟨?_, ⟨{ submittedSession st s data with end_time := some st.now }, ?_⟩, ?_⟩
  · simpa [setActive] using
      dictGet_dictErase_self (dictSet st.active_sessions sid
        (submittedSession st s data)) sid
  · refine ⟨by simp [setActive, List.getLast?_concat], hf.1, ?_, ?_, rfl⟩
    · exact hf.2.2.2.2.1
    · exact hf.2.2.2.2.2
  · refine ⟨_, rfl, ?_, rfl⟩
    simp only [generate_session_summary, hf.2.2.2.2.1, hf.2.2.2.2.2]
    push_cast
    ring

theorem submitMany_cons (st : TechState) (sid : String) (d : StepData)
    (ds : List StepData) :
    submitMany st sid (d :: ds) =
      if ds = [] then submit_step_data st sid d
      else submitMany (submit_step_data st sid d).1 sid ds := by
  cases ds <;> rfl

/-- Submitting data once per remaining step finalizes the session. -/
theorem submitMany_finalizes (datas : List StepData) :
    ∀ (st : TechState) (sid : String) (s : CreativitySession),
      activeGet st sid = some s →
      s.current_step + datas.length = s.total_steps →
      datas ≠ [] →
      activeGet (submitMany st sid datas).1 sid = none ∧
      (∃ s', (submitMany st sid datas).1.session_history.getLast? = some s' ∧
        s'.session_id = s.session_id ∧ s'.current_step = s.total_steps ∧
        (s'.end_time).isSome = true) ∧
      (∃ c, (submitMany st sid datas).2 = .dict (.completionDict c) ∧
        c.summary.completion_rate =
          ((s.total_steps : ℚ) / (s.total_steps : ℚ)) * 100 ∧
        c.session_id = sid) := by
  induction datas with
  | nil => intro _ _ _ _ _ hne; exact absurd rfl hne
  | cons d ds ih =>
    intro st sid s h hlen _
    cases ds with
    | nil =>
      have hstep : s.current_step + 1 = s.total_steps := by
        simpa using hlen
      have hc := submit_complete_branch st sid d s h (le_of_eq hstep.symm)
      rw [submitMany_cons, if_pos rfl]
      refine ⟨hc.1, ?_, ?_⟩
      · rcases hc.2.1 with ⟨s', hs', hid, hstep', htot, hend⟩
        exact ⟨s', hs', hid, by omega, by simp [hend]⟩
      · rcases hc.2.2 with ⟨c, hcq, hrate, hcid⟩
        refine ⟨c, hcq, ?_, hcid⟩
        rw [hrate, ← hstep]
        push_cast
        ring
    | cons d2 ds2 =>
      have hlt : s.current_step + 1 < s.total_steps := by
        simp only [List.length_cons] at hlen
        omega
      rcases submit_status_branch st sid d s h hlt with
        ⟨s', hs', hid, _, _, hstep', htot⟩
      rw [submitMany_cons, if_neg (by simp)]
      have hlen' : s'.current_step + (d2 :: ds2).length = s'.total_steps := by
        simp only [List.length_cons] at hlen ⊢
        omega
      rcases ih (submit_step_data st sid d).1 sid s' hs' hlen' (by simp) with
        ⟨h1, ⟨s'', h2, h2id, h2step, h2end⟩, ⟨c, h3, h3rate, h3id⟩⟩
      refine ⟨h1, ⟨s'', h2, h2id.trans hid, by omega, h2end⟩,
        ⟨c, h3, ?_, h3id⟩⟩
      rw [h3rate, htot]

/-! ## `start_session` facts and the fixed key sets (claims C1, C4) -/

theorem start_session_eq (st : TechState) (technique : CreativityTechnique)
    (problem_statement : String) (participants : Option (List String))
    (session_id : Option String) :
    start_session st technique problem_statement participants session_id =
      (setActive st (generatedId st technique session_id)
        (freshSession st technique problem_statement participants session_id),
       generatedId st technique session_id) := rfl

theorem start_session_active (st : TechState) (technique : CreativityTechnique)
    (problem_statement : String) (participants : Option (List String))
    (session_id : Option String) :
    activeGet (start_session st technique problem_statement participants session_id).1
        (start_session st technique problem_statement participants session_id).2 =
      some (freshSession st technique problem_statement participants session_id) :=
  activeGet_setActive_self _ _ _

/-- Every technique has exactly six step instructions. -/
theorem instructions_steps_length (technique : CreativityTechnique) :
    (instructions technique).steps.length = 6 := by
  cases technique <;> rfl

/-- The key set of claim C4: the fixed, technique-determined keys. -/
def fixedKeys : CreativityTechnique → List String
  | .random_word_association => ["random_words", "associations", "selected_ideas"]
  | .reverse_brainstorming =>
    ["reversed_problem", "anti_solutions", "reversed_solutions", "final_solutions"]
  | .lotus_blossom =>
    ["core_problem", "primary_themes", "theme_grids", "connections", "solution_clusters"]

theorem freshSessionData_keys (technique : CreativityTechnique)
    (problem_statement : String) :
    (freshSessionData technique problem_statement).map Prod.fst =
      fixedKeys technique := by
  cases technique <;> rfl

/-- `_store_step_data` never adds or removes a `session_data` key: every key
it writes already belongs to the technique's fixed key set. -/
theorem store_step_data_keys (s : CreativitySession) (d : StepData)
    (hkeys : ∀ k ∈ fixedKeys s.technique, k ∈ s.session_data.map Prod.fst) :
    (store_step_data s d).session_data.map Prod.fst =
      s.session_data.map Prod.fst := by
  unfold store_step_data
  cases htech : s.technique <;> rw [htech] at hkeys <;> dsimp only <;>
    split_ifs <;>
    first
    | rfl
    | (simp only [setSD]
       apply keys_dictSet_of_mem
       apply hkeys
       simp [fixedKeys])

/-- A step handler either leaves the key set alone or—only for Random Word
Association at step 1—appends exactly `word_analysis`. -/
theorem get_next_action_keys (sampled : List String) (s : CreativitySession)
    (x : CreativitySession × ActionPayload)
    (h : get_next_action sampled s = some x)
    (hkeys : ∀ k ∈ fixedKeys s.technique, k ∈ s.session_data.map Prod.fst) :
    x.1.session_data.map Prod.fst = s.session_data.map Prod.fst ∨
    (s.technique = .random_word_association ∧ s.current_step = 1 ∧
      "word_analysis" ∉ s.session_data.map Prod.fst ∧
      x.1.session_data.map Prod.fst =
        s.session_data.map Prod.fst ++ ["word_analysis"]) := by
  unfold get_next_action at h
  cases htech : s.technique <;> rw [htech] at h hkeys
  · unfold rwaAction at h
    split_ifs at h with h0 h1
    case _ => cases h; exact Or.inl rfl
    case _ =>
      rcases hw : suggest_random_words s.problem_statement sampled 3 with _ | ⟨w, ws⟩ <;>
        rw [hw] at h
      · exact absurd h (by simp)
      · cases h
        have hrw : (dictSet s.session_data "random_words"
            (SDVal.strList (getStrList s.session_data "random_words" ++ [w.word]))).map
              Prod.fst = s.session_data.map Prod.fst :=
          keys_dictSet_of_mem _ _ _ (hkeys _ (by simp [fixedKeys]))
        by_cases hwa : "word_analysis" ∈ s.session_data.map Prod.fst
        · refine Or.inl ?_
          dsimp only
          rw [keys_dictSet_of_mem _ _ _ (hrw ▸ hwa), hrw]
        · refine Or.inr ⟨rfl, h1, hwa, ?_⟩
          dsimp only
          rw [keys_dictSet_of_not_mem _ _ _ (hrw ▸ hwa), hrw]
    all_goals (cases h; exact Or.inl rfl)
  · unfold revAction at h
    split_ifs at h <;> cases h <;>
      first
      | exact Or.inl rfl
      | exact Or.inl (keys_dictSet_of_mem _ _ _ (hkeys _ (by simp [fixedKeys])))
  · unfold lotusAction at h
    split_ifs at h <;> cases h <;> exact Or.inl rfl

/-! ## The ordering contract of `extract_keywords` (claim C7) -/

theorem rel_of_pairwise_indexOf {R : String → String → Prop} {l : List String}
    (hpw : l.Pairwise R) {a b : String} (ha : a ∈ l) (hb : b ∈ l)
    (hab : l.indexOf a < l.indexOf b) : R a b := by
  have hia := List.indexOf_lt_length.mpr ha
  have hib := List.indexOf_lt_length.mpr hb
  have := List.pairwise_iff_getElem.mp hpw (l.indexOf a) (l.indexOf b) hia hib hab
  rwa [List.getElem_indexOf, List.getElem_indexOf] at this

/-- The behaviour of `extract_keywords` over the keyword token list: at most
ten distinct keywords, each a surviving token, ordered by strictly
descending count with ties in first-occurrence order, and complete whenever
there are at most ten distinct keywords. -/
theorem extract_keywords_props (t : String) :
    (extract_keywords t).length = min (firstDedup (keywordTokens t)).length 10 ∧
    (extract_keywords t).Nodup ∧
    (∀ w ∈ extract_keywords t, w ∈ keywordTokens t ∧
      stop_words.contains w = false ∧ 2 < w.length) ∧
    ((firstDedup (keywordTokens t)).length ≤ 10 →
      ∀ w ∈ keywordTokens t, w ∈ extract_keywords t) ∧
    (extract_keywords t).Pairwise (fun a b =>
      (keywordTokens t).count b < (keywordTokens t).count a ∨
      ((keywordTokens t).count a = (keywordTokens t).count b ∧
        (keywordTokens t).indexOf a < (keywordTokens t).indexOf b)) := by
  have hdnd : (firstDedup (keywordTokens t)).Nodup := firstDedup_nodup _
  have ek_def : extract_keywords t =
      ((firstDedup (keywordTokens t)).insertionSort
        (fun a b => (keywordTokens t).count b ≤ (keywordTokens t).count a)).take 10 := rfl
  have hperm : List.Perm ((firstDedup (keywordTokens t)).insertionSort
      (fun a b => (keywordTokens t).count b ≤ (keywordTokens t).count a))
      (firstDedup (keywordTokens t)) := List.perm_insertionSort _ _
  have hlen := hperm.length_eq
  have hsrtnd : ((firstDedup (keywordTokens t)).insertionSort
      (fun a b => (keywordTokens t).count b ≤ (keywordTokens t).count a)).Nodup :=
    hperm.nodup_iff.mpr hdnd
  refine ⟨?_, ?_, ?_, ?_, ?_⟩
  · rw [ek_def, List.length_take, hlen, Nat.min_comm]
  · rw [ek_def]
    exact hsrtnd.sublist (List.take_sublist _ _)
  · intro w hw
    have hwsrt : w ∈ (firstDedup (keywordTokens t)).insertionSort
        (fun a b => (keywordTokens t).count b ≤ (keywordTokens t).count a) :=
      (List.take_sublist _ _).subset (ek_def ▸ hw)
    have hwk : w ∈ keywordTokens t :=
      mem_firstDedup.mp (hperm.mem_iff.mp hwsrt)
    have hfil := (List.mem_filter.mp hwk).2
    refine ⟨hwk, ?_, ?_⟩
    · simp only [decide_eq_true_eq, Bool.and_eq_true, not_true] at hfil
      simpa using hfil.1
    · simp only [decide_eq_true_eq, Bool.and_eq_true] at hfil
      simpa using hfil.2
  · intro hle w hwk
    have : ((firstDedup (keywordTokens t)).insertionSort
        (fun a b => (keywordTokens t).count b ≤ (keywordTokens t).count a)).take 10 =
        (firstDedup (keywordTokens t)).insertionSort
          (fun a b => (keywordTokens t).count b ≤ (keywordTokens t).count a) :=
      List.take_of_length_le (by rw [hlen]; exact hle)
    rw [ek_def, this]
    exact hperm.mem_iff.mpr (mem_firstDedup.mpr hwk)
  · have hstab := insertionSort_stable_pairwise
      (fun w => (keywordTokens t).count w) (firstDedup (keywordTokens t)) hdnd
    have hbridge := firstDedup_pairwise_indexOf (keywordTokens t)
    have hpw : ((firstDedup (keywordTokens t)).insertionSort
        (fun a b => (keywordTokens t).count b ≤ (keywordTokens t).count a)).Pairwise
        (fun a b => (keywordTokens t).count b < (keywordTokens t).count a ∨
          ((keywordTokens t).count a = (keywordTokens t).count b ∧
            (keywordTokens t).indexOf a < (keywordTokens t).indexOf b)) := by
      refine hstab.imp_of_mem ?_
      intro a b ha hb hp
      rcases hp with hlt | ⟨he, hidx⟩
      · exact Or.inl hlt
      · refine Or.inr ⟨he, ?_⟩
        exact rel_of_pairwise_indexOf hbridge
          (hperm.mem_iff.mp ha) (hperm.mem_iff.mp hb) hidx
    rw [ek_def]
    exact hpw.sublist (List.take_sublist _ _)

/-! ## Unfolding `detect_idea_clusters` (claim C9) -/

theorem detectGo_nil (θ : ℚ) (n : ℕ) : detectGo θ n [] = [] := by
  cases n <;> rfl

theorem detectGo_congr (θ : ℚ) :
    ∀ (n m : ℕ) (l : List String), l.length ≤ n → l.length ≤ m →
      detectGo θ n l = detectGo θ m l := by
  intro n
  induction n with
  | zero =>
    intro m l hn _
    rw [List.length_eq_zero.mp (Nat.le_zero.mp hn), detectGo_nil, detectGo_nil]
  | succ n ih =>
    intro m l hn hm
    cases l with
    | nil => rw [detectGo_nil, detectGo_nil]
    | cons x xs =>
      cases m with
      | zero => simp at hm
      | succ m =>
        show _ :: detectGo θ n (xs.filter fun y => ¬ θ ≤ calculate_similarity x y) =
          _ :: detectGo θ m (xs.filter fun y => ¬ θ ≤ calculate_similarity x y)
        have hf : (xs.filter fun y => ¬ θ ≤ calculate_similarity x y).length ≤ xs.length :=
          List.length_filter_le _ _
        rw [ih m (xs.filter fun y => ¬ θ ≤ calculate_similarity x y)
          (le_trans hf (by simpa using hn)) (le_trans hf (by simpa using hm))]

/-- One unfolding of the greedy loop: the head opens a cluster, the later
ideas at or above the threshold join it (in order), and the loop recurses on
exactly the ideas that did not join. -/
theorem detect_idea_clusters_cons (x : String) (xs : List String) (θ : ℚ) :
    detect_idea_clusters (x :: xs) θ =
      { representative_idea := x
        similar_ideas := x :: xs.filter (fun y => θ ≤ calculate_similarity x y)
        cluster_theme :=
          if extract_keywords (String.intercalate " "
              (x :: xs.filter (fun y => θ ≤ calculate_similarity x y))) ≠ [] then
            String.intercalate ", " ((extract_keywords (String.intercalate " "
              (x :: xs.filter (fun y => θ ≤ calculate_similarity x y)))).take 3)
          else "Mixed concepts"
        similarity_scores :=
          (xs.filter (fun y => θ ≤ calculate_similarity x y)).map
            (fun y => calculate_similarity x y) }
      :: detect_idea_clusters (xs.filter (fun y => ¬ θ ≤ calculate_similarity x y)) θ := by
  show detectGo θ (xs.length + 1) (x :: xs) = _
  rw [detectGo]
  rw [detectGo_congr θ xs.length
    (xs.filter fun y => ¬ θ ≤ calculate_similarity x y).length _
    (List.length_filter_le _ _) (le_refl _)]
  rfl

/-! ## `switch_technique` with a non-empty idea list (claims C4, C8) -/

theorem switch_technique_spec (st : TechState) (sid : String)
    (newTech : CreativityTechnique) (cur : CreativitySession)
    (h : activeGet st sid = some cur) (hne : cur.ideas_generated ≠ []) :
    ∃ ns,
      (switch_technique st sid newTech true).2 =
        .ok ("hybrid_" ++ toString st.now) ∧
      activeGet (switch_technique st sid newTech true).1
        ("hybrid_" ++ toString st.now) = some ns ∧
      ns.ideas_generated = cur.ideas_generated ∧
      ns.technique = newTech ∧
      ns.problem_statement = cur.problem_statement ∧
      ns.participants = cur.participants ∧
      dictGet ns.session_data "preserved_from_previous" =
        some (.preserved cur.technique.value cur.ideas_generated.length) ∧
      ns.session_data.map Prod.fst =
        fixedKeys newTech ++ ["preserved_from_previous"] ∧
      (∃ arch,
        (switch_technique st sid newTech true).1.session_history.getLast? =
          some arch ∧
        arch.session_id = cur.session_id ∧ arch.end_time = some st.now ∧
        arch.current_step = cur.current_step ∧
        arch.ideas_generated = cur.ideas_generated) := by
  unfold switch_technique
  rw [h]
  dsimp only
  rw [if_neg (by simpa [List.isEmpty_iff] using hne)]
  rw [start_session_active]
  dsimp only
  refine ⟨_, rfl, activeGet_setActive_self _ _ _, ?_, rfl, rfl, rfl,
    dictGet_dictSet_self _ _ _, ?_, ?_⟩
  · show (freshSession _ newTech _ _ _).ideas_generated ++ cur.ideas_generated =
      cur.ideas_generated
    rfl
  · show (dictSet (freshSession _ newTech cur.problem_statement _ _).session_data
      "preserved_from_previous" _).map Prod.fst = _
    rw [keys_dictSet_of_not_mem]
    · show (freshSessionData newTech cur.problem_statement).map Prod.fst ++ _ = _
      rw [freshSessionData_keys]
    · show "preserved_from_previous" ∉
        (freshSessionData newTech cur.problem_statement).map Prod.fst
      rw [freshSessionData_keys]
      cases newTech <;> decide
  · refine ⟨{ cur with end_time := some st.now }, ?_, rfl, rfl, rfl, rfl⟩
    show ((complete_session st sid).1.session_history).getLast? = _
    unfold complete_session
    rw [h]
    simp [List.getLast?_concat]

/-! ## Concrete fixtures for the claim theorems -/

deriving instance DecidableEq for Except

def cexState0 : TechState := ⟨[], [], 0, ["telescope"]⟩

def cexStart1 : TechState × String :=
  start_session cexState0 .random_word_association "problem one"
    (some ["Alice"]) (some "dup")

def cexStart2 : TechState × String :=
  start_session cexStart1.1 .reverse_brainstorming "problem two"
    (some ["Bob"]) (some "dup")

def cexHistSession : CreativitySession :=
  { session_id := "h", technique := .lotus_blossom, problem_statement := "p",
    start_time := 0, end_time := some 0, participants := ["x"],
    ideas_generated := [], current_step := 6, total_steps := 6,
    session_data := freshSessionData .lotus_blossom "p" }

def cexStateHist : TechState := ⟨[], [cexHistSession], 0, []⟩

def c4session : CreativitySession :=
  { session_id := "s1", technique := .random_word_association,
    problem_statement := "improve team work", start_time := 0, end_time := none,
    participants := ["a"], ideas_generated := [], current_step := 1,
    total_steps := 6,
    session_data := freshSessionData .random_word_association "improve team work" }

def c4state : TechState := ⟨[("s1", c4session)], [], 0, ["telescope"]⟩

def fixedIdea : IdeaRecord :=
  { step := 1, timestamp := 0, idea := "an idea", participant := "a",
    nlp_analysis := ⟨1, 0, 0, 0, []⟩ }

def c8session : CreativitySession :=
  { session_id := "s8", technique := .random_word_association,
    problem_statement := "p", start_time := 0, end_time := none,
    participants := ["a"], ideas_generated := [], current_step := 2,
    total_steps := 6,
    session_data := freshSessionData .random_word_association "p" }

def c8state : TechState := ⟨[("s8", c8session)], [], 0, []⟩

def c8withIdeas : TechState :=
  ⟨[("s8", { c8session with ideas_generated := [fixedIdea] })], [], 0, []⟩

def c10session : CreativitySession :=
  { session_id := "a1", technique := .random_word_association,
    problem_statement := "p", start_time := 0, end_time := none,
    participants := ["a"], ideas_generated := [], current_step := 2,
    total_steps := 6,
    session_data :=
      [("random_words", .strList []),
       ("associations", .strMap [("old association", "old meaning")]),
       ("selected_ideas", .strList [])] }

def c10state : TechState := ⟨[("a1", c10session)], [], 0, []⟩

def sixEmptySubmits : List StepData := [{}, {}, {}, {}, {}, {}]

/-! ## Claim C1 -/

/-- Claim C1, counterexample: `start_session` performs no duplicate check.
Starting a second session under the already-active id `"dup"` does not fail
with any error — `start_session` has no failure outcome at all — and the
first session is silently replaced (it is in neither the active store nor
the history afterwards).  Starting a session under an id that sits in the
history (`"h"`) likewise succeeds. -/
theorem C1_counterexample_duplicate_id_overwrites :
    cexStart2.2 = "dup" ∧
    (activeGet cexStart1.1 "dup").map (fun s => s.technique) =
      some .random_word_association ∧
    (activeGet cexStart2.1 "dup").map (fun s => s.technique) =
      some .reverse_brainstorming ∧
    (activeGet cexStart2.1 "dup").map (fun s => s.problem_statement) =
      some "problem two" ∧
    cexStart2.1.session_history = [] ∧
    (start_session cexStateHist .random_word_association "p" none (some "h")).2
      = "h" ∧
    (activeGet (start_session cexStateHist .random_word_association "p" none
      (some "h")).1 "h").map (fun s => s.technique) =
      some .random_word_association := by
  decide

/-- Claim C1, amended: `start_session` never fails on a duplicate session id
(there is no `DuplicateSessionError` in the code); whatever the state, it
returns the given-or-generated id, stores a brand-new session under that id
— silently replacing any active session stored there — and never touches
the history. -/
theorem C1_start_session_overwrites (st : TechState)
    (technique : CreativityTechnique) (problem_statement : String)
    (participants : Option (List String)) (session_id : Option String) :
    (start_session st technique problem_statement participants session_id).2 =
      generatedId st technique session_id ∧
    activeGet (start_session st technique problem_statement participants session_id).1
        (generatedId st technique session_id) =
      some (freshSession st technique problem_statement participants session_id) ∧
    (start_session st technique problem_statement participants session_id).1.session_history =
      st.session_history :=
  ⟨rfl, activeGet_setActive_self _ _ _, rfl⟩

/-! ## Claim C2 -/

/-- Claim C2, counterexample: on an unknown id neither operation raises —
both return, as their ordinary result, the `{"error": "Session not found"}`
dictionary (the embedding's `PyResult.raised` would mark a raised
exception; the result here is `PyResult.dict`, a normal return value, and
no `NotFoundError` exists in the code). -/
theorem C2_counterexample_error_is_normal_result :
    get_session_status cexState0 "missing" =
      (cexState0, .dict (.errorDict "Session not found")) ∧
    submit_step_data cexState0 "missing" {} =
      (cexState0, .dict (.errorDict "Session not found")) :=
  ⟨rfl, rfl⟩

/-- Claim C2, amended: for every session id absent from the active store,
`get_session_status` and `submit_step_data` return — rather than raise —
the `{"error": "Session not found"}` dict (leaving the state untouched),
and for every active id they never produce that error value. -/
theorem C2_not_found_is_returned_dict :
    (∀ st sid, activeGet st sid = none →
      get_session_status st sid = (st, .dict (.errorDict "Session not found")) ∧
      ∀ data, submit_step_data st sid data =
        (st, .dict (.errorDict "Session not found"))) ∧
    (∀ st sid s, activeGet st sid = some s →
      (get_session_status st sid).2 ≠ .dict (.errorDict "Session not found") ∧
      ∀ data, (submit_step_data st sid data).2 ≠
        .dict (.errorDict "Session not found")) := by
  have hstat : ∀ st sid s, activeGet st sid = some s →
      (get_session_status st sid).2 ≠ .dict (.errorDict "Session not found") := by
    intro st sid s h
    unfold get_session_status
    rw [h]
    dsimp only
    rcases get_next_action st.sampled s with _ | ⟨s', a⟩ <;> simp
  constructor
  · intro st sid h
    constructor
    · unfold get_session_status
      rw [h]
    · intro data
      unfold submit_step_data
      rw [h]
  · intro st sid s h
    refine ⟨hstat st sid s h, ?_⟩
    intro data
    rw [submit_step_data_eq st sid data s h]
    split_ifs
    · unfold complete_session
      rw [activeGet_setActive_self]
      simp
    · exact hstat _ sid _ (activeGet_setActive_self _ _ _)

/-- Witness for C2 at concrete inputs. -/
theorem C2_not_found_witness :
    get_session_status cexState0 "missing" =
      (cexState0, .dict (.errorDict "Session not found")) ∧
    (get_session_status c4state "s1").2 ≠
      .dict (.errorDict "Session not found") :=
  ⟨(C2_not_found_is_returned_dict.1 cexState0 "missing" (by decide)).1,
   (C2_not_found_is_returned_dict.2 c4state "s1" c4session (by decide)).1⟩

/-! ## Claim C3 -/

/-- Claim C3 (confirmed; the finalization path uses the spec-modelled
`generate_nlp_insights`, since `_generate_nlp_insights` is missing from the
repository): every submission on an active session advances `current_step`
by exactly one, whatever the payload; when the advanced counter is still
below `total_steps` the session stays active, otherwise it is finalized —
removed from the active store, appended to the history with `end_time` set.
And for a freshly started session (six steps for every technique), exactly
six submissions finalize it, the last call returning the completion dict
whose summary reports `completion_rate = 100`. -/
theorem C3_submit_advances_and_six_submissions_finalize :
    (∀ st sid data s, activeGet st sid = some s →
      if s.current_step + 1 < s.total_steps then
        ∃ s', activeGet (submit_step_data st sid data).1 sid = some s' ∧
          s'.current_step = s.current_step + 1
      else
        activeGet (submit_step_data st sid data).1 sid = none ∧
        ∃ s', (submit_step_data st sid data).1.session_history.getLast? = some s' ∧
          s'.current_step = s.current_step + 1 ∧ s'.end_time = some st.now) ∧
    (∀ st tech prob parts osid datas, datas.length = 6 →
      activeGet (submitMany (start_session st tech prob parts osid).1
          (start_session st tech prob parts osid).2 datas).1
        (start_session st tech prob parts osid).2 = none ∧
      (∃ s', (submitMany (start_session st tech prob parts osid).1
            (start_session st tech prob parts osid).2 datas).1.session_history.getLast? =
          some s' ∧
        s'.session_id = (start_session st tech prob parts osid).2 ∧
        s'.current_step = 6 ∧ (s'.end_time).isSome = true) ∧
      (∃ c, (submitMany (start_session st tech prob parts osid).1
            (start_session st tech prob parts osid).2 datas).2 =
          .dict (.completionDict c) ∧
        c.summary.completion_rate = 100 ∧
        c.session_id = (start_session st tech prob parts osid).2)) := by
  constructor
  · intro st sid data s h
    split_ifs with hlt
    · rcases submit_status_branch st sid data s h hlt with ⟨s', h1, _, _, _, h5, _⟩
      exact ⟨s', h1, h5⟩
    · have hge : s.total_steps ≤ s.current_step + 1 := by omega
      rcases submit_complete_branch st sid data s h hge with
        ⟨h1, ⟨s', h2, _, h4, _, h6⟩, _⟩
      exact ⟨h1, s', h2, h4, h6⟩
  · intro st tech prob parts osid datas hlen
    have hfresh := start_session_active st tech prob parts osid
    have hc : (freshSession st tech prob parts osid).current_step + datas.length =
        (freshSession st tech prob parts osid).total_steps := by
      show 0 + datas.length = (instructions tech).steps.length
      rw [instructions_steps_length, hlen]
    have hne : datas ≠ [] := by
      intro e
      rw [e] at hlen
      simp at hlen
    rcases submitMany_finalizes datas _ _ _ hfresh hc hne with
      ⟨h1, ⟨s', h2, h2a, h2b, h2c⟩, ⟨c, h3, h3a, h3b⟩⟩
    refine ⟨h1, ⟨s', h2, h2a, ?_, h2c⟩, ⟨c, h3, ?_, h3b⟩⟩
    · exact h2b.trans (instructions_steps_length tech)
    · rw [h3a]
      have h6 : ((freshSession st tech prob parts osid).total_steps : ℚ) = 6 := by
        rw [show (freshSession st tech prob parts osid).total_steps =
          (instructions tech).steps.length from rfl, instructions_steps_length]
        norm_num
      rw [h6]
      norm_num

/-- Witness for C3: a concrete Reverse Brainstorming session submitted six
times with empty payloads. -/
theorem C3_six_submissions_witness :
    activeGet (submitMany
        (start_session cexState0 .reverse_brainstorming "p" none (some "r1")).1
        (start_session cexState0 .reverse_brainstorming "p" none (some "r1")).2
        sixEmptySubmits).1
      (start_session cexState0 .reverse_brainstorming "p" none (some "r1")).2 = none ∧
    (∃ s', (submitMany
        (start_session cexState0 .reverse_brainstorming "p" none (some "r1")).1
        (start_session cexState0 .reverse_brainstorming "p" none (some "r1")).2
        sixEmptySubmits).1.session_history.getLast? = some s' ∧
      s'.session_id = (start_session cexState0 .reverse_brainstorming "p" none
        (some "r1")).2 ∧
      s'.current_step = 6 ∧ (s'.end_time).isSome = true) ∧
    (∃ c, (submitMany
        (start_session cexState0 .reverse_brainstorming "p" none (some "r1")).1
        (start_session cexState0 .reverse_brainstorming "p" none (some "r1")).2
        sixEmptySubmits).2 = .dict (.completionDict c) ∧
      c.summary.completion_rate = 100 ∧
      c.session_id = (start_session cexState0 .reverse_brainstorming "p" none
        (some "r1")).2) :=
  C3_submit_advances_and_six_submissions_finalize.2 cexState0
    .reverse_brainstorming "p" none (some "r1") sixEmptySubmits rfl

/-! ## Claim C5 -/

/-- Claim C5 (confirmed): `calculate_similarity` is symmetric, always lies
in [0,1], is 0 whenever either text's keyword set is empty, and equals 1 on
identical texts with a non-empty keyword set. -/
theorem C5_similarity_symmetric_bounded :
    (∀ a b, calculate_similarity a b = calculate_similarity b a) ∧
    (∀ a b, 0 ≤ calculate_similarity a b ∧ calculate_similarity a b ≤ 1) ∧
    (∀ a b, extract_keywords a = [] ∨ extract_keywords b = [] →
      calculate_similarity a b = 0) ∧
    (∀ x, extract_keywords x ≠ [] → calculate_similarity x x = 1) :=
  ⟨calculate_similarity_comm,
   fun a b => ⟨calculate_similarity_nonneg a b, calculate_similarity_le_one a b⟩,
   calculate_similarity_empty,
   calculate_similarity_self⟩

/-- Witness for C5 at concrete inputs: the empty text has no keywords, and
a text with keywords has similarity 1 with itself. -/
theorem C5_similarity_witness :
    calculate_similarity "" "alpha" = 0 ∧
    calculate_similarity "alpha beta" "alpha beta" = 1 :=
  ⟨C5_similarity_symmetric_bounded.2.2.1 "" "alpha" (Or.inl (by decide)),
   C5_similarity_symmetric_bounded.2.2.2 "alpha beta" (by decide)⟩

/-! ## Claim C6 -/

/-- Claim C6, counterexample: the returned components are rounded to two
decimal places, so `novelty` is not exactly `1 − calculate_similarity`:
for idea "alpha beta" against problem "alpha beta gamma" the similarity is
2/3, the claimed novelty is 1/3, but the returned `novelty_score` is 0.33. -/
theorem C6_counterexample_novelty_is_rounded :
    (analyze_idea_quality "alpha beta" "alpha beta gamma").novelty_score = 33/100 ∧
    1 - calculate_similarity "alpha beta" "alpha beta gamma" = 1/3 ∧
    (33/100 : ℚ) ≠ 1/3 := by
  have hsim : calculate_similarity "alpha beta" "alpha beta gamma" = 2/3 := by
    rw [calculate_similarity_def]
    rw [show extract_keywords "alpha beta" = ["alpha", "beta"] from by decide,
      show extract_keywords "alpha beta gamma" = ["alpha", "beta", "gamma"] from by decide]
    rw [if_neg (by decide), if_pos (by decide)]
    rw [show ((["alpha","beta"] : List String).toFinset ∩
        (["alpha","beta","gamma"] : List String).toFinset).card = 2 from by decide,
      show ((["alpha","beta"] : List String).toFinset ∪
        (["alpha","beta","gamma"] : List String).toFinset).card = 3 from by decide]
    norm_num
  have hround : pyRound 2 (1/3 : ℚ) = 33/100 := by
    unfold pyRound
    rw [roundHalfEven_def]
    have hfl : ⌊(1/3 : ℚ) * 10 ^ 2⌋ = 33 := by
      rw [Int.floor_eq_iff]
      constructor <;> norm_num
    rw [hfl, if_pos (by push_cast; norm_num)]
    norm_num
  refine ⟨?_, by rw [hsim]; norm_num, by norm_num⟩
  show pyRound 2 (1 - calculate_similarity "alpha beta" "alpha beta gamma") = 33/100
  rw [hsim, show (1 : ℚ) - 2/3 = 1/3 from by norm_num, hround]

/-- Claim C6, amended: `analyze_idea_quality` returns the claimed formulas
rounded to two decimal places (`round(x, 2)`), with the composite computed
from the unrounded components before its own rounding; all four returned
scores lie in [0,1], and `key_concepts` is the first five keywords. -/
theorem C6_quality_formulas_rounded (idea problem_text : String) :
    (analyze_idea_quality idea problem_text).novelty_score =
      pyRound 2 (1 - calculate_similarity idea problem_text) ∧
    (analyze_idea_quality idea problem_text).complexity_score =
      pyRound 2 (min (((extract_keywords idea).length : ℚ) / 10) 1) ∧
    (analyze_idea_quality idea problem_text).specificity_score =
      pyRound 2 (min ((word_count idea : ℚ) / 20) 1) ∧
    (analyze_idea_quality idea problem_text).quality_score =
      pyRound 2 ((1 - calculate_similarity idea problem_text) * (4/10) +
        min (((extract_keywords idea).length : ℚ) / 10) 1 * (3/10) +
        min ((word_count idea : ℚ) / 20) 1 * (3/10)) ∧
    (analyze_idea_quality idea problem_text).key_concepts =
      (extract_keywords idea).take 5 ∧
    (0 ≤ (analyze_idea_quality idea problem_text).novelty_score ∧
      (analyze_idea_quality idea problem_text).novelty_score ≤ 1) ∧
    (0 ≤ (analyze_idea_quality idea problem_text).complexity_score ∧
      (analyze_idea_quality idea problem_text).complexity_score ≤ 1) ∧
    (0 ≤ (analyze_idea_quality idea problem_text).specificity_score ∧
      (analyze_idea_quality idea problem_text).specificity_score ≤ 1) ∧
    (0 ≤ (analyze_idea_quality idea problem_text).quality_score ∧
      (analyze_idea_quality idea problem_text).quality_score ≤ 1) := by
  have hs0 := calculate_similarity_nonneg idea problem_text
  have hs1 := calculate_similarity_le_one idea problem_text
  have hc0 : 0 ≤ min (((extract_keywords idea).length : ℚ) / 10) 1 :=
    le_min (by positivity) zero_le_one
  have hc1 : min (((extract_keywords idea).length : ℚ) / 10) 1 ≤ 1 :=
    min_le_right _ _
  have hw0 : 0 ≤ min ((word_count idea : ℚ) / 20) 1 :=
    le_min (by positivity) zero_le_one
  have hw1 : min ((word_count idea : ℚ) / 20) 1 ≤ 1 := min_le_right _ _
  have hq0 : 0 ≤ (1 - calculate_similarity idea problem_text) * (4/10) +
      min (((extract_keywords idea).length : ℚ) / 10) 1 * (3/10) +
      min ((word_count idea : ℚ) / 20) 1 * (3/10) := by nlinarith
  have hq1 : (1 - calculate_similarity idea problem_text) * (4/10) +
      min (((extract_keywords idea).length : ℚ) / 10) 1 * (3/10) +
      min ((word_count idea : ℚ) / 20) 1 * (3/10) ≤ 1 := by nlinarith
  exact ⟨rfl, rfl, rfl, rfl, rfl,
    pyRound_mem_unit 2 _ (by linarith) (by linarith),
    pyRound_mem_unit 2 _ hc0 hc1,
    pyRound_mem_unit 2 _ hw0 hw1,
    pyRound_mem_unit 2 _ hq0 hq1⟩

/-! ## Claim C7 -/

/-- Claim C7's reading of the tokenizer — "tokenize into lowercase
alphabetic runs": every maximal alphabetic run of the lowered text becomes
a token, with no word-boundary side condition.  The rest of the pipeline is
identical to `extract_keywords`.  Used only to exhibit where the code's
regex (whose word boundaries reject runs glued to digits or underscores)
differs from the claim's words. -/
def tokenizeRunsGo (run : List Char) : List Char → List (List Char)
  | [] => if run ≠ [] then [run] else []
  | c :: cs =>
    if c.isAlpha then tokenizeRunsGo (run ++ [c]) cs
    else (if run ≠ [] then [run] else []) ++ tokenizeRunsGo [] cs

def tokenizeRuns (text : String) : List String :=
  (tokenizeRunsGo [] (text.data.map Char.toLower)).map (fun cs => String.mk cs)

def extract_keywords_spec (text : String) : List String :=
  let keywords := (tokenizeRuns text).filter
    (fun w => ¬ stop_words.contains w ∧ w.length > 2)
  ((firstDedup keywords).insertionSort
    (fun a b => keywords.count b ≤ keywords.count a)).take 10

/-- Claim C7, counterexample: the code's regex `\x5cb[a-zA-Z]+\x5cb` does not
tokenize "abc123" into the alphabetic run "abc" — the word boundary fails
against the adjacent digit, so no token at all is produced — while the
claim's tokenization ("lowercase alphabetic runs", `extract_keywords_spec`)
yields "abc". -/
theorem C7_counterexample_boundary_tokenization :
    tokenize "abc123" = [] ∧
    extract_keywords "abc123" = [] ∧
    tokenizeRuns "abc123" = ["abc"] ∧
    extract_keywords_spec "abc123" = ["abc"] ∧
    extract_keywords "abc123" ≠ extract_keywords_spec "abc123" := by
  decide

/-- Claim C7, amended: `extract_keywords` tokenizes the lowered text into
maximal alphabetic runs whose neighbours are word boundaries (a run glued
to a digit or an underscore is dropped), discards stop-words and tokens of
length ≤ 2, and returns at most 10 distinct surviving tokens — all of them
when at most ten are distinct — ordered by descending frequency with ties
broken by first occurrence. -/
theorem C7_keyword_ordering (t : String) :
    (extract_keywords t).length = min (firstDedup (keywordTokens t)).length 10 ∧
    (extract_keywords t).Nodup ∧
    (∀ w ∈ extract_keywords t, w ∈ keywordTokens t ∧
      stop_words.contains w = false ∧ 2 < w.length) ∧
    ((firstDedup (keywordTokens t)).length ≤ 10 →
      ∀ w ∈ keywordTokens t, w ∈ extract_keywords t) ∧
    (extract_keywords t).Pairwise (fun a b =>
      (keywordTokens t).count b < (keywordTokens t).count a ∨
      ((keywordTokens t).count a = (keywordTokens t).count b ∧
        (keywordTokens t).indexOf a < (keywordTokens t).indexOf b)) :=
  extract_keywords_props t

/-! ## Claim C4 -/

/-- Claim C4, counterexample: requesting the status of a Random Word
Association session at step 1 adds the key `word_analysis` to
`technique_data` (source line 524), so the key set is not fixed at the
technique's three keys. -/
theorem C4_counterexample_word_analysis_key_added :
    ((activeGet (get_session_status c4state "s1").1 "s1").map
      (fun s => s.session_data.map Prod.fst)) =
      some ["random_words", "associations", "selected_ideas", "word_analysis"] ∧
    "word_analysis" ∉ fixedKeys .random_word_association := by
  decide

/-- Claim C4, amended: `technique_data` starts with exactly the technique's
fixed key set; `_store_step_data` never adds or removes a key; the only
operations that extend the key set are the step-1 status handler of Random
Word Association, which appends exactly `word_analysis`, and
`switch_technique` with preserved ideas, which appends exactly
`preserved_from_previous` to the new session's fixed keys; no key is ever
removed. -/
theorem C4_technique_data_keys :
    (∀ st tech prob parts osid, ∃ s,
      activeGet (start_session st tech prob parts osid).1
        (start_session st tech prob parts osid).2 = some s ∧
      s.session_data.map Prod.fst = fixedKeys tech) ∧
    (∀ s data, (∀ k ∈ fixedKeys s.technique, k ∈ s.session_data.map Prod.fst) →
      (store_step_data s data).session_data.map Prod.fst =
        s.session_data.map Prod.fst) ∧
    (∀ sampled s x, get_next_action sampled s = some x →
      (∀ k ∈ fixedKeys s.technique, k ∈ s.session_data.map Prod.fst) →
      x.1.session_data.map Prod.fst = s.session_data.map Prod.fst ∨
      (s.technique = .random_word_association ∧ s.current_step = 1 ∧
        "word_analysis" ∉ s.session_data.map Prod.fst ∧
        x.1.session_data.map Prod.fst =
          s.session_data.map Prod.fst ++ ["word_analysis"])) ∧
    (∀ st sid newTech cur, activeGet st sid = some cur →
      cur.ideas_generated ≠ [] →
      ∃ ns, activeGet (switch_technique st sid newTech true).1
          ("hybrid_" ++ toString st.now) = some ns ∧
        ns.session_data.map Prod.fst =
          fixedKeys newTech ++ ["preserved_from_previous"]) := by
  refine ⟨?_, store_step_data_keys, get_next_action_keys, ?_⟩
  · intro st tech prob parts osid
    refine ⟨freshSession st tech prob parts osid,
      start_session_active st tech prob parts osid, ?_⟩
    show (freshSessionData tech prob).map Prod.fst = fixedKeys tech
    exact freshSessionData_keys tech prob
  · intro st sid newTech cur h hne
    rcases switch_technique_spec st sid newTech cur h hne with
      ⟨ns, _, h2, _, _, _, _, _, h8, _⟩
    exact ⟨ns, h2, h8⟩

/-- Witness for C4 at concrete inputs: a fresh session's keys, a store call
that keeps the keys, and a switch that appends `preserved_from_previous`. -/
theorem C4_technique_data_keys_witness :
    (∃ s, activeGet (start_session cexState0 .lotus_blossom "p" none
        (some "w4")).1
      (start_session cexState0 .lotus_blossom "p" none (some "w4")).2 = some s ∧
      s.session_data.map Prod.fst = fixedKeys .lotus_blossom) ∧
    (store_step_data c10session {}).session_data.map Prod.fst =
      c10session.session_data.map Prod.fst ∧
    (∃ ns, activeGet (switch_technique c8withIdeas "s8" .lotus_blossom true).1
        ("hybrid_" ++ toString (0 : ℕ)) = some ns ∧
      ns.session_data.map Prod.fst =
        fixedKeys .lotus_blossom ++ ["preserved_from_previous"]) :=
  ⟨C4_technique_data_keys.1 cexState0 .lotus_blossom "p" none (some "w4"),
   C4_technique_data_keys.2.1 c10session {} (by decide),
   C4_technique_data_keys.2.2.2 c8withIdeas "s8" .lotus_blossom
     { c8session with ideas_generated := [fixedIdea] } (by decide) (by decide)⟩

/-! ## Claim C8 -/

/-- Claim C8, counterexample: switching away from a session with no ideas
records no `preserved_from_previous` entry at all in the new session's
`technique_data` (the code only writes it when the preserved idea list is
non-empty), so its `ideas_count` cannot equal the preserved length 0. -/
theorem C8_counterexample_no_preserved_key_without_ideas :
    c8session.ideas_generated = [] ∧
    (switch_technique c8state "s8" .lotus_blossom true).2 = .ok "hybrid_0" ∧
    ((activeGet (switch_technique c8state "s8" .lotus_blossom true).1
        "hybrid_0").map
      (fun s => dictGet s.session_data "preserved_from_previous")) =
        some none := by
  decide

/-- Claim C8, amended: for an active session with a non-empty idea list,
`switch_technique(sid, new_technique, preserve_data=true)` finalizes the
source (archived to the history with `end_time` set and its ideas intact)
and returns a new session whose idea list equals the source's list at
switch time — so its length is ≥ the source's, and every preserved entry
keeps its original `step` and `quality_analysis` — and whose
`technique_data.preserved_from_previous` holds the source technique and
that ideas count.  When the source has no ideas the key is absent
(counterexample above). -/
theorem C8_switch_preserves_ideas (st : TechState) (sid : String)
    (newTech : CreativityTechnique) (cur : CreativitySession)
    (h : activeGet st sid = some cur) (hne : cur.ideas_generated ≠ []) :
    ∃ ns, (switch_technique st sid newTech true).2 =
        .ok ("hybrid_" ++ toString st.now) ∧
      activeGet (switch_technique st sid newTech true).1
        ("hybrid_" ++ toString st.now) = some ns ∧
      ns.ideas_generated = cur.ideas_generated ∧
      cur.ideas_generated.length ≤ ns.ideas_generated.length ∧
      ns.technique = newTech ∧
      dictGet ns.session_data "preserved_from_previous" =
        some (.preserved cur.technique.value cur.ideas_generated.length) ∧
      (∃ arch, (switch_technique st sid newTech true).1.session_history.getLast? =
          some arch ∧
        arch.session_id = cur.session_id ∧ arch.end_time = some st.now ∧
        arch.ideas_generated = cur.ideas_generated) := by
  rcases switch_technique_spec st sid newTech cur h hne with
    ⟨ns, h1, h2, h3, h4, _, _, h7, _, arch, ha1, ha2, ha3, _, ha5⟩
  exact ⟨ns, h1, h2, h3, by rw [h3], h4, h7, arch, ha1, ha2, ha3, ha5⟩

/-- Witness for C8: a concrete session holding one idea. -/
theorem C8_switch_preserves_ideas_witness :
    ∃ ns, (switch_technique c8withIdeas "s8" .lotus_blossom true).2 =
        .ok ("hybrid_" ++ toString (0 : ℕ)) ∧
      activeGet (switch_technique c8withIdeas "s8" .lotus_blossom true).1
        ("hybrid_" ++ toString (0 : ℕ)) = some ns ∧
      ns.ideas_generated = [fixedIdea] ∧
      ([fixedIdea] : List IdeaRecord).length ≤ ns.ideas_generated.length ∧
      ns.technique = .lotus_blossom ∧
      dictGet ns.session_data "preserved_from_previous" =
        some (.preserved "random_word_association" 1) ∧
      (∃ arch, (switch_technique c8withIdeas "s8" .lotus_blossom
          true).1.session_history.getLast? = some arch ∧
        arch.session_id = "s8" ∧ arch.end_time = some 0 ∧
        arch.ideas_generated = [fixedIdea]) :=
  C8_switch_preserves_ideas c8withIdeas "s8" .lotus_blossom
    { c8session with ideas_generated := [fixedIdea] } (by decide) (by decide)

/-! ## Claim C9 -/

/-- Claim C9 (confirmed): `detect_idea_clusters` is the single-pass greedy
algorithm — the first idea opens a cluster as representative, every later
idea whose similarity to that representative reaches the threshold joins
it, and the loop recurses on exactly the ideas that did not join — and on
the three example ideas with threshold 0.3 it yields two clusters: the
first two shipping-cost ideas together (similarity 3/4), the UX idea
alone. -/
theorem C9_greedy_clustering :
    (∀ θ : ℚ, detect_idea_clusters [] θ = []) ∧
    (∀ (x : String) (xs : List String) (θ : ℚ),
      detect_idea_clusters (x :: xs) θ =
        { representative_idea := x
          similar_ideas := x :: xs.filter (fun y => θ ≤ calculate_similarity x y)
          cluster_theme :=
            if extract_keywords (String.intercalate " "
                (x :: xs.filter (fun y => θ ≤ calculate_similarity x y))) ≠ [] then
              String.intercalate ", " ((extract_keywords (String.intercalate " "
                (x :: xs.filter (fun y => θ ≤ calculate_similarity x y)))).take 3)
            else "Mixed concepts"
          similarity_scores :=
            (xs.filter (fun y => θ ≤ calculate_similarity x y)).map
              (fun y => calculate_similarity x y) }
        :: detect_idea_clusters
            (xs.filter (fun y => ¬ θ ≤ calculate_similarity x y)) θ) ∧
    detect_idea_clusters
      ["reduce cost of shipping", "reduce shipping cost fast", "improve UX design"]
      (3/10) =
    [{ representative_idea := "reduce cost of shipping"
       similar_ideas := ["reduce cost of shipping", "reduce shipping cost fast"]
       cluster_theme := "reduce, cost, shipping"
       similarity_scores := [3/4] },
     { representative_idea := "improve UX design"
       similar_ideas := ["improve UX design"]
       cluster_theme := "improve, design"
       similarity_scores := [] }] := by
  refine ⟨fun θ => rfl, detect_idea_clusters_cons, ?_⟩
  have hs12 : calculate_similarity "reduce cost of shipping"
      "reduce shipping cost fast" = 3/4 := by
    rw [calculate_similarity_def]
    rw [show extract_keywords "reduce cost of shipping" =
        ["reduce", "cost", "shipping"] from by decide,
      show extract_keywords "reduce shipping cost fast" =
        ["reduce", "shipping", "cost", "fast"] from by decide]
    rw [if_neg (by decide), if_pos (by decide)]
    rw [show ((["reduce","cost","shipping"] : List String).toFinset ∩
        (["reduce","shipping","cost","fast"] : List String).toFinset).card = 3
        from by decide,
      show ((["reduce","cost","shipping"] : List String).toFinset ∪
        (["reduce","shipping","cost","fast"] : List String).toFinset).card = 4
        from by decide]
    norm_num
  have hs13 : calculate_similarity "reduce cost of shipping"
      "improve UX design" = 0 := by
    rw [calculate_similarity_def]
    rw [show extract_keywords "reduce cost of shipping" =
        ["reduce", "cost", "shipping"] from by decide,
      show extract_keywords "improve UX design" = ["improve", "design"] from by decide]
    rw [if_neg (by decide), if_pos (by decide)]
    rw [show ((["reduce","cost","shipping"] : List String).toFinset ∩
        (["improve","design"] : List String).toFinset).card = 0 from by decide]
    norm_num
  rw [detect_idea_clusters_cons]
  rw [show (["reduce shipping cost fast", "improve UX design"].filter
      (fun y => (3:ℚ)/10 ≤ calculate_similarity "reduce cost of shipping" y)) =
      ["reduce shipping cost fast"] from by
    simp [List.filter_cons, hs12, hs13]
    norm_num]
  rw [show (["reduce shipping cost fast", "improve UX design"].filter
      (fun y => ¬ (3:ℚ)/10 ≤ calculate_similarity "reduce cost of shipping" y)) =
      ["improve UX design"] from by
    simp [List.filter_cons, hs12, hs13]
    norm_num]
  rw [detect_idea_clusters_cons]
  rw [show (([] : List String).filter
      (fun y => (3:ℚ)/10 ≤ calculate_similarity "improve UX design" y)) = []
      from rfl]
  rw [show (([] : List String).filter
      (fun y => ¬ (3:ℚ)/10 ≤ calculate_similarity "improve UX design" y)) = []
      from rfl]
  rw [show detect_idea_clusters [] (3/10 : ℚ) = [] from rfl]
  rw [show String.intercalate " "
      ["reduce cost of shipping", "reduce shipping cost fast"] =
      "reduce cost of shipping reduce shipping cost fast" from rfl]
  rw [show String.intercalate " " ["improve UX design"] = "improve UX design"
    from rfl]
  rw [show extract_keywords "reduce cost of shipping reduce shipping cost fast" =
    ["reduce", "cost", "shipping", "fast"] from by decide]
  rw [show extract_keywords "improve UX design" = ["improve", "design"] from by decide]
  rw [if_pos (by decide), if_pos (by decide)]
  rw [show List.map (fun y => calculate_similarity "reduce cost of shipping" y)
      ["reduce shipping cost fast"] = [3/4] from by rw [List.map_cons, hs12]; rfl]
  rfl

/-! ## Claim C10 -/

/-- Claim C10 (confirmed): for a Random Word Association session at
`current_step = 2`, submitting any payload replaces
`technique_data["associations"]` wholesale with the payload's
`associations` field — the empty mapping when the field is absent — never
merging with the prior value; the session stays active at step 3. -/
theorem C10_associations_replaced_wholesale (st : TechState) (sid : String)
    (data : StepData) (s : CreativitySession)
    (h : activeGet st sid = some s)
    (htech : s.technique = .random_word_association)
    (hstep : s.current_step = 2) (htot : s.total_steps = 6) :
    ∃ s', activeGet (submit_step_data st sid data).1 sid = some s' ∧
      s'.current_step = 3 ∧
      dictGet s'.session_data "associations" =
        some (.strMap (data.associations.getD [])) := by
  have hfields := submittedSession_fields st s data
  have hsd : (submittedSession st s data).session_data =
      dictSet s.session_data "associations"
        (.strMap (data.associations.getD [])) := by
    unfold submittedSession store_step_data
    rw [htech]
    dsimp only
    rw [hstep]
    cases data.ideas <;> rfl
  have hcur : (submittedSession st s data).current_step = 3 := by
    rw [hfields.2.2.2.2.1, hstep]
  have htots : (submittedSession st s data).total_steps = 6 := by
    rw [hfields.2.2.2.2.2, htot]
  have htech' : (submittedSession st s data).technique =
      .random_word_association := by rw [hfields.2.1, htech]
  rw [submit_step_data_eq st sid data s h, if_neg (by rw [hcur, htots]; norm_num)]
  have hna : get_next_action
      (setActive st sid (submittedSession st s data)).sampled
      (submittedSession st s data) =
      some ((submittedSession st s data), { action := "develop_ideas" }) := by
    unfold get_next_action
    rw [htech']
    unfold rwaAction
    rw [hcur]
    norm_num
  unfold get_session_status
  rw [activeGet_setActive_self]
  dsimp only
  rw [hna]
  refine ⟨submittedSession st s data, activeGet_setActive_self _ _ _, hcur, ?_⟩
  rw [hsd]
  exact dictGet_dictSet_self _ _ _

/-- Witness for C10: a concrete session whose `associations` map holds an
old entry; an empty payload erases it. -/
theorem C10_associations_replaced_witness :
    ∃ s', activeGet (submit_step_data c10state "a1" {}).1 "a1" = some s' ∧
      s'.current_step = 3 ∧
      dictGet s'.session_data "associations" = some (.strMap []) :=
  C10_associations_replaced_wholesale c10state "a1" {} c10session
    (by decide) (by decide) (by decide) (by decide)
